import Mathlib

/-!
# Verification of the FaceFusion pipeline orchestrator

Shallow embedding of the job-orchestration core of
`src/facefusion-api-src/app/fastapi_server.py`: the Remote Job Client
(`RunPodEndpoint.wait`), the durable task store (`JobStore`) and the
pipeline engine (`JobManager._execute`), together with proofs of the
specification claims about them.

Modelling conventions:
* Python JSON-like values are the inductive type `Jv`; Python `dict`s are
  association lists with insertion-order update semantics (`aset`).
* Strings stored in Redis or on disk are represented by their JSON parse
  result (`Option Jv`): `json.dumps` of a value always parses back to that
  value, and an unparseable string is `none`.
* Clock readings (`time.time()`, `time.monotonic()`, `_now_iso()`) are
  modelled as integers; `isoOf` is the (injective) ISO-8601 rendering.
* Remote endpoints are oracles: each call's outcome is a parameter of the
  run (`RemoteEnv`), an `Except` carrying the structured error payload the
  Python wrapper would raise.
-/

/-- JSON-like values, the domain of Python objects handled by the store and
engine (`num` models both Python ints and the floats the code stores, which
are only ever compared and added). -/
inductive Jv where
  | null
  | bool (b : Bool)
  | num (n : Int)
  | str (s : String)
  | arr (xs : List Jv)
  | obj (kvs : List (String × Jv))
deriving Repr

namespace Jv

/-- Python truthiness of a value (`bool(v)`). -/
def pyTruthy : Jv → Bool
  | .null => false
  | .bool b => b
  | .num n => n ≠ 0
  | .str s => s ≠ ""
  | .arr xs => ¬ xs.isEmpty
  | .obj kvs => ¬ kvs.isEmpty

/-- Whether a value is a Python `dict` (`isinstance(v, dict)`). -/
def isObj : Jv → Bool
  | .obj _ => true
  | _ => false

/-- Whether a value is a Python `str`. -/
def isStr : Jv → Bool
  | .str _ => true
  | _ => false

/-- Whether a value is a Python `list`. -/
def isArr : Jv → Bool
  | .arr _ => true
  | _ => false

end Jv

/-- Association-list lookup, modelling `d.get(k)` on a Python dict
(`none` = key absent). -/
def alookup {α : Type} (kvs : List (String × α)) (k : String) : Option α :=
  match kvs with
  | [] => none
  | (k', v) :: rest => if k' = k then some v else alookup rest k

/-- Association-list update, modelling `d[k] = v` on a Python dict:
an existing key keeps its position, a new key is appended (insertion
order). -/
def aset {α : Type} (kvs : List (String × α)) (k : String) (v : α) :
    List (String × α) :=
  match kvs with
  | [] => [(k, v)]
  | (k', v') :: rest =>
      if k' = k then (k', v) :: rest else (k', v') :: aset rest k v

/-- Association-list removal, modelling `del d[k]` / purging an entry. -/
def aremove {α : Type} (kvs : List (String × α)) (k : String) :
    List (String × α) :=
  match kvs with
  | [] => []
  | (k', v') :: rest =>
      if k' = k then rest else (k', v') :: aremove rest k

/-- `d.update(other)` on Python dicts: fold the updates left to right. -/
def aupdate {α : Type} (kvs other : List (String × α)) :
    List (String × α) :=
  other.foldl (fun acc kv => aset acc kv.1 kv.2) kvs

namespace Jv

/-- `v.get(k)` where missing keys and non-dict receivers yield `None`
(the engine only calls this on dicts). -/
def jGet (v : Jv) (k : String) : Jv :=
  match v with
  | .obj kvs => (alookup kvs k).getD .null
  | _ => .null

/-- Whether a dict value contains a key (`k in v`). -/
def hasKey (v : Jv) (k : String) : Bool :=
  match v with
  | .obj kvs => (alookup kvs k).isSome
  | _ => false

/-- `v[k] = x` on a dict value; non-dicts are unchanged (the code only
assigns into dicts). -/
def jset (v : Jv) (k : String) (x : Jv) : Jv :=
  match v with
  | .obj kvs => .obj (aset kvs k x)
  | _ => v

end Jv

/-- ASCII upper-casing, modelling `str.upper()` on the tag strings the
client compares (worker tags are ASCII). -/
def pyUpper (s : String) : String :=
  String.mk (s.data.map Char.toUpper)

/-- `str(v)` for the scalar values that can appear as a status tag.  Exact
for `str`, `int`, `bool` and `None`; containers render with their Python
bracket as first character, which is all the comparisons against the
all-letter tag vocabularies depend on. -/
def pyStr : Jv → String
  | .null => "None"
  | .bool true => "True"
  | .bool false => "False"
  | .num n => toString n
  | .str s => s
  | .arr _ => "[…]"
  | .obj _ => "\x7b…\x7d"

/-- One poll's classification outcome inside `RunPodEndpoint.wait`. -/
inductive PollStep where
  | retOk (status : Jv)
  | errOutputError (detail : Jv)
  | errJobFailed (detail : Jv)
  | keepPolling
deriving Repr

/-- `status_raw = status.get("status") or status.get("state") or ""`
followed by `str(...).upper()` (fastapi_server.py:963-964). -/
def tagStr (status : Jv) : String :=
  let s1 := status.jGet "status"
  let s2 := status.jGet "state"
  pyUpper (pyStr (if s1.pyTruthy then s1 else if s2.pyTruthy then s2 else .str ""))

/-- The success-tag vocabulary of `RunPodEndpoint.wait`. -/
def successTags : List String := ["COMPLETED", "COMPLETED_SUCCESS", "SUCCEEDED"]

/-- The terminal-failure-tag vocabulary of `RunPodEndpoint.wait`. -/
def failureTags : List String := ["FAILED", "FAILED_INTERNAL", "CANCELLED", "ERROR"]

/-- Classification of one polled status object, the body of the loop in
`RunPodEndpoint.wait` (fastapi_server.py:961-973) before the timeout
check: output-error first, then success, then terminal failure. -/
def classifyPoll (status : Jv) : PollStep :=
  let output := status.jGet "output"
  let state := tagStr status
  if output.isObj ∧ (output.jGet "error").pyTruthy then
    .errOutputError output
  else if state ∈ successTags ∨ (state = "" ∧ output.pyTruthy) then
    .retOk status
  else if state ∈ failureTags then
    .errJobFailed (if output.isObj then output else status)
  else
    .keepPolling

/-- One observed poll in a `wait` run: the status object returned by the
remote endpoint and the monotonic time elapsed when the post-poll timeout
check runs. -/
structure PollObs where
  status : Jv
  elapsed : Int
deriving Repr

/-- Outcome of running `RunPodEndpoint.wait` against a finite list of
observed polls. -/
inductive WaitOutcome where
  | ok (status : Jv)
  | outputError (detail : Jv)
  | jobFailed (detail : Jv)
  | timedOut (lastTag : String)
  | pending
deriving Repr

/-- Python truthiness of the optional float `timeout` argument
(`if timeout and ...`): `None` and `0` are falsy. -/
def timeoutTruthy : Option Int → Bool
  | none => false
  | some t => t ≠ 0

/-- The guard `timeout and time.monotonic() - start > timeout`
(fastapi_server.py:975). -/
def waitTimeoutHit (timeout : Option Int) (elapsed : Int) : Bool :=
  timeoutTruthy timeout &&
    (match timeout with
     | none => false
     | some t => elapsed > t)

/-- `RunPodEndpoint.wait` (fastapi_server.py:958-978) run against a finite
list of poll observations; `pending` means the loop would poll again past
the end of the list.  The timeout check `if timeout and
time.monotonic() - start > timeout` runs only after a poll has been
classified as none of output-error / success / terminal failure. -/
def waitRun (timeout : Option Int) : List PollObs → WaitOutcome
  | [] => .pending
  | p :: rest =>
    match classifyPoll p.status with
    | .retOk s => .ok s
    | .errOutputError d => .outputError d
    | .errJobFailed d => .jobFailed d
    | .keepPolling =>
        if waitTimeoutHit timeout p.elapsed then
          .timedOut (tagStr p.status)
        else
          waitRun timeout rest

example :
    classifyPoll (.obj [("status", .str "FAILED"),
      ("output", .obj [("error", .str "oom")])]) =
    .errOutputError (.obj [("error", .str "oom")]) := rfl

example :
    classifyPoll (.obj [("status", .str "FAILED"),
      ("output", .obj [("error", .null)])]) =
    .errJobFailed (.obj [("error", .null)]) := rfl

example :
    classifyPoll (.obj [("output", .obj [("output_key", .str "k")])]) =
    .retOk (.obj [("output", .obj [("output_key", .str "k")])]) := rfl

example :
    waitRun (some 2) [⟨.obj [("status", .str "IN_QUEUE")], 1⟩,
      ⟨.obj [("status", .str "IN_QUEUE")], 3⟩] = .timedOut "IN_QUEUE" := rfl

example :
    waitRun (some 0) [⟨.obj [("status", .str "IN_QUEUE")], 99⟩] = .pending := rfl

/-! ## Task store (`JobStore`, fastapi_server.py:1017-1160)

The Redis cache is a map from key strings to entries; each entry records
the parse result of the stored JSON string together with the absolute
expiry instant installed by `set(..., ex=ttl)`.  The disk mirror is a map
from file names (within the persist directory) to the parse result of the
file's content.  `_json_safe` is the identity on `Jv` (no byte strings,
sets, cycles or non-string dict keys are representable), so `write` stores
records unchanged. -/

/-- Python `str.isalnum`, restricted to code points below U+0100 (ASCII and
Latin-1); code points at or above U+0100 — many of which are also
alphanumeric in Python — are outside the model and mapped to `false`.
In Latin-1, Python counts the letters U+00AA, U+00B5, U+00BA, U+00C0-D6,
U+00D8-F6, U+00F8-FF and the numerics U+00B2, U+00B3, U+00B9, U+00BC-BE
as alphanumeric. -/
def pyIsAlnumN (n : Nat) : Bool :=
  (48 ≤ n && n ≤ 57) || (65 ≤ n && n ≤ 90) || (97 ≤ n && n ≤ 122) ||
  n == 0xAA || n == 0xB5 || n == 0xBA ||
  n == 0xB2 || n == 0xB3 || n == 0xB9 ||
  (0xBC ≤ n && n ≤ 0xBE) ||
  (0xC0 ≤ n && n ≤ 0xD6) || (0xD8 ≤ n && n ≤ 0xF6) ||
  (0xF8 ≤ n && n ≤ 0xFF)

/-- See `pyIsAlnumN`. -/
def pyIsAlnum (c : Char) : Bool :=
  pyIsAlnumN c.toNat

/-- The character filter of `JobStore._backup_path`
(`ch.isalnum() or ch in "-_."`, fastapi_server.py:1047). -/
def backupKeep (c : Char) : Bool :=
  pyIsAlnum c || c == '-' || c == '_' || c == '.'

/-- JobStore configuration: `prefix` (already stripped of trailing colons),
the cache TTL, the disk TTL, and whether a persist directory was
successfully initialised. -/
structure StoreCfg where
  prefixStr : String
  ttl : Int
  persistTtl : Int
  persistEnabled : Bool

/-- One Redis entry: the parse result of the stored string and the absolute
expiry instant installed with it. -/
structure CacheEntry where
  content : Option Jv
  expiresAt : Int

/-- The mutable state a `JobStore` acts on: the shared cache and the
persist directory (file name ↦ parse result of the file content). -/
structure StoreState where
  cache : List (String × CacheEntry)
  disk : List (String × Option Jv)

/-- `JobStore._key` (fastapi_server.py:1041-1042). -/
def storeKey (cfg : StoreCfg) (taskId : String) : String :=
  cfg.prefixStr ++ ":" ++ taskId

/-- `JobStore._backup_path` (fastapi_server.py:1044-1050): `none` when no
persist directory is configured; otherwise the file name inside the
persist directory. -/
def backupPath (cfg : StoreCfg) (taskId : String) : Option String :=
  if cfg.persistEnabled then
    let safeId := String.mk (taskId.data.filter backupKeep)
    let safeId := if safeId = "" then "task" else safeId
    some (safeId ++ ".json")
  else
    none

/-- `JobStore._purge_backup` (fastapi_server.py:1052-1062): best-effort
deletion of the backup file. -/
def purgeBackup (st : StoreState) (path : String) : StoreState :=
  { st with disk := aremove st.disk path }

/-- The task-id extraction `job.get("task_id", "")` used by
`_write_backup`; records written by the store always carry a string
`task_id`. -/
def taskIdOf (job : Jv) : String :=
  match job.jGet "task_id" with
  | .str s => s
  | _ => ""

/-- `JobStore._write_backup` (fastapi_server.py:1064-1081): writes
`{"payload": job, "expires_at": now + persist_ttl}` to the backup file
via the `.tmp` + atomic-rename pattern (modelled as one installed write). -/
def writeBackup (cfg : StoreCfg) (st : StoreState) (job : Jv) (now : Int) :
    StoreState :=
  match backupPath cfg (taskIdOf job) with
  | none => st
  | some path =>
      let payload : Jv := .obj [("payload", job),
        ("expires_at", .num (now + cfg.persistTtl))]
      { st with disk := aset st.disk path (some payload) }

/-- Outcome of a store read: a returned payload with the
possibly-changed state, or an exception escaping uncaught (the state is
the one reached when it was raised). -/
inductive ReadResult where
  | ret (payload : Option Jv) (st : StoreState)
  | raised (st : StoreState)

/-- The payload component of a read outcome (`none` for a raised read). -/
def ReadResult.payload : ReadResult → Option Jv
  | .ret p _ => p
  | .raised _ => none

/-- `JobStore._read_backup` (fastapi_server.py:1083-1101).  Only the
`json.loads` call is guarded: an unparseable file is purged and `None`
returned, but a file parsing to a non-dict top level raises
`AttributeError` at `data.get("expires_at")`, and a dict wrapper whose
truthy `expires_at` is neither a number nor a bool raises `TypeError` at
the `expires_at < time.time()` comparison (Python bools are ints, so
`True` compares as `1`); both escape with nothing purged.  Otherwise a
dict wrapper whose truthy `expires_at` lies strictly before `now`, and
one whose `payload` is not a mapping, are purged with `None` returned;
a mapping `payload` is returned. -/
def readBackup (cfg : StoreCfg) (st : StoreState) (taskId : String)
    (now : Int) : ReadResult :=
  match backupPath cfg taskId with
  | none => .ret none st
  | some path =>
    match alookup st.disk path with
    | none => .ret none st
    | some none => .ret none (purgeBackup st path)
    | some (some data) =>
      match data with
      | .obj kvs =>
        let expiresAt := (alookup kvs "expires_at").getD .null
        let payload := (alookup kvs "payload").getD .null
        let fin : ReadResult :=
          if ¬ payload.isObj then .ret none (purgeBackup st path)
          else .ret (some payload) st
        if expiresAt.pyTruthy then
          match expiresAt with
          | .num ev =>
              if ev < now then .ret none (purgeBackup st path) else fin
          | .bool _ =>
              if (1 : Int) < now then .ret none (purgeBackup st path)
              else fin
          | _ => .raised st
        else fin
      | _ => .raised st

/-- `JobStore.write` (fastapi_server.py:1103-1107): `_json_safe` is the
identity on `Jv`, so the payload stored to the cache (with expiry
`now + ttl`) and mirrored to disk is the record itself, which is also
returned. -/
def storeWrite (cfg : StoreCfg) (st : StoreState) (job : Jv) (now : Int) :
    Jv × StoreState :=
  let entry := CacheEntry.mk (some job) (now + cfg.ttl)
  let st1 : StoreState :=
    { st with cache := aset st.cache (storeKey cfg (taskIdOf job)) entry }
  (job, writeBackup cfg st1 job now)

/-- `JobStore.get` (fastapi_server.py:1109-1122).  On a cache miss the disk
mirror is consulted and a falsy payload (`if not payload`) yields `None`;
a truthy payload is rehydrated into the cache with a fresh TTL; an
exception raised by `_read_backup` propagates uncaught out of `get`.  On
a cache hit the stored string's parse result decides: unparseable ⇒
`None` with no disk access. -/
def storeGet (cfg : StoreCfg) (st : StoreState) (taskId : String)
    (now : Int) : ReadResult :=
  match alookup st.cache (storeKey cfg taskId) with
  | none =>
    match readBackup cfg st taskId now with
    | .raised st1 => .raised st1
    | .ret none st1 => .ret none st1
    | .ret (some payload) st1 =>
        if ¬ payload.pyTruthy then
          .ret none st1
        else
          let entry := CacheEntry.mk (some payload) (now + cfg.ttl)
          .ret (some payload)
            { st1 with cache := aset st1.cache (storeKey cfg taskId) entry }
  | some entry =>
    match entry.content with
    | none => .ret none st
    | some v => .ret (some v) st

/-- The key-value pairs of a dict value (`[]` for non-dicts). -/
def objKvs : Jv → List (String × Jv)
  | .obj kvs => kvs
  | _ => []

/-- The elements of a list value (`[]` for non-lists). -/
def arrItems : Jv → List Jv
  | .arr xs => xs
  | _ => []

/-- The merge loop of `JobStore.update_fields`
(fastapi_server.py:1129-1135) applied to one `(key, value)` pair,
mirroring the source's `if key == "details" and isinstance(value, dict) /
elif key == "progress" and isinstance(value, list) / else` chain.
`none` models the `AttributeError` Python raises when an existing
`details` field is not a dict while a dict is merged into it (resp.
`progress` not a list); records written by the engine never trigger it. -/
def applyUpdate (job : Jv) (kv : String × Jv) : Option Jv :=
  if kv.1 = "details" ∧ kv.2.isObj = true then
    match job.jGet "details" with
    | .obj existing =>
        some (job.jset "details" (.obj (aupdate existing (objKvs kv.2))))
    | .null =>
        if job.hasKey "details" then none
        else some (job.jset "details" (.obj (aupdate [] (objKvs kv.2))))
    | _ => none
  else if kv.1 = "progress" ∧ kv.2.isArr = true then
    match job.jGet "progress" with
    | .arr existing =>
        some (job.jset "progress" (.arr (existing ++ arrItems kv.2)))
    | .null =>
        if job.hasKey "progress" then none
        else some (job.jset "progress" (.arr (arrItems kv.2)))
    | _ => none
  else
    some (job.jset kv.1 kv.2)

/-- The whole merge loop of `JobStore.update_fields` over an updates
mapping. -/
def applyUpdates (job : Jv) (updates : List (String × Jv)) : Option Jv :=
  match updates with
  | [] => some job
  | kv :: rest =>
    match applyUpdate job kv with
    | none => none
    | some job1 => applyUpdates job1 rest

/-- Abstract ISO-8601 rendering of a model clock instant (`_now_iso`);
injectivity is all the claims use. -/
def isoOf (t : Int) : String := toString t

/-- Result of `JobStore.update_fields`: the record did not exist, or the
new sanitized record, or a raised exception (ill-typed merge; never for
engine-written records). -/
inductive UpdateResult where
  | notFound (st : StoreState)
  | updated (record : Jv) (st : StoreState)
  | raised

/-- `JobStore.update_fields` (fastapi_server.py:1124-1139): read, merge,
stamp `updated_at`, write.  A falsy or non-dict read result returns `None`
without writing (`if not job`); an exception from `get` propagates, and
assigning into a truthy non-dict would raise. -/
def updateFields (cfg : StoreCfg) (st : StoreState) (taskId : String)
    (updates : List (String × Jv)) (now : Int) : UpdateResult :=
  match storeGet cfg st taskId now with
  | .raised _ => .raised
  | .ret none st1 => .notFound st1
  | .ret (some job) st1 =>
    if ¬ job.pyTruthy then .notFound st1
    else if ¬ job.isObj then .raised
    else
      match applyUpdates job updates with
      | none => .raised
      | some job1 =>
          let job2 := job1.jset "updated_at" (.str (isoOf now))
          let (payload, st2) := storeWrite cfg st1 job2 now
          .updated payload st2

/-- The progress entry built by `JobStore.append_progress`
(fastapi_server.py:1149-1153): `stage` and `extra` are included only when
truthy. -/
def progressEntry (now : Int) (message : String) (stage : Option String)
    (extra : Option Jv) : Jv :=
  .obj ([("timestamp", .str (isoOf now)), ("message", .str message)] ++
    (match stage with
     | some s => if s ≠ "" then [("stage", .str s)] else []
     | none => []) ++
    (match extra with
     | some e => if e.pyTruthy then [("extra", e)] else []
     | none => []))

/-- `JobStore.append_progress` (fastapi_server.py:1141-1154). -/
def appendProgress (cfg : StoreCfg) (st : StoreState) (taskId : String)
    (now : Int) (message : String) (stage : Option String)
    (extra : Option Jv) : UpdateResult :=
  updateFields cfg st taskId
    [("progress", .arr [progressEntry now message stage extra])] now

/-! ## Pipeline engine (`JobManager`, fastapi_server.py:1168-1458)

The engine is a per-task coroutine; its interactions with the remote
workers are oracles supplied by a `RemoteEnv` (each call returns the
worker's answer or the structured error payload the client wrapper would
raise).  A run threads an `ES`: the store state, a model clock that ticks
once per store operation, and the observable trace of endpoint
submissions and store updates. -/

/-- Python `str.strip()` with no argument: remove leading and trailing
whitespace (ASCII whitespace, which covers every value the pipeline's
callers produce). -/
def pyStrip (s : String) : String :=
  String.mk
    (((s.data.dropWhile Char.isWhitespace).reverse.dropWhile
      Char.isWhitespace).reverse)

/-- The snapshot of `PipelineRequest` (pipeline.py:118-145) the engine
consumes; nested option records are JSON values (their `model_dump`). -/
structure PipelineRequest where
  source_keys : List String
  target_key : Option String
  audio_key : Option String
  audio_base64 : Option String
  reference_audio_key : Option String
  script_text : Option String
  output_key : Option String
  wav2lip_output_key : Option String
  sovits : Jv
  retain_intermediate : Bool
  wav2lip : Jv
  facefusion : Jv

/-- Python truthiness of an optional string field (`None` and `""` are
falsy). -/
def optTruthy : Option String → Bool
  | none => false
  | some s => s ≠ ""

/-- An optional string as the JSON value `model_dump` produces. -/
def optStrJv : Option String → Jv
  | none => .null
  | some s => .str s

/-- `_request_to_dict` (fastapi_server.py:64-67): `model_dump` in pydantic
field-declaration order. -/
def requestToDict (r : PipelineRequest) : Jv :=
  .obj [("source_keys", .arr (r.source_keys.map .str)),
        ("target_key", optStrJv r.target_key),
        ("audio_key", optStrJv r.audio_key),
        ("audio_base64", optStrJv r.audio_base64),
        ("reference_audio_key", optStrJv r.reference_audio_key),
        ("script_text", optStrJv r.script_text),
        ("output_key", optStrJv r.output_key),
        ("wav2lip_output_key", optStrJv r.wav2lip_output_key),
        ("sovits", r.sovits),
        ("retain_intermediate", .bool r.retain_intermediate),
        ("wav2lip", r.wav2lip),
        ("facefusion", r.facefusion)]

/-- Which worker endpoints are configured on the `JobManager`
(non-`None` `sovits_endpoint` / `wav_endpoint` / `face_endpoint`). -/
structure EngineCfg where
  sovitsConfigured : Bool
  wavConfigured : Bool
  faceConfigured : Bool

/-- Oracle for the remote interactions of one run: for each endpoint, the
outcome of `submit` (job id, or the structured `runpod_submit_failed`
payload raised) and of `wait` (final status object, or the structured
payload raised: `runpod_job_failed`, `runpod_output_error`,
`runpod_job_timeout` or `runpod_status_failed`). -/
structure RemoteEnv where
  sovitsSubmit : Jv → Except Jv String
  sovitsWait : String → Except Jv Jv
  wavSubmit : Jv → Except Jv String
  wavWait : String → Except Jv Jv
  faceSubmit : Jv → Except Jv String
  faceWait : String → Except Jv Jv

/-- Observable events of an engine run: a payload submitted to a worker,
or an updates mapping passed to `JobStore.update_fields`. -/
inductive Ev where
  | submitSovits (payload : Jv)
  | submitWav (payload : Jv)
  | submitFace (payload : Jv)
  | update (updates : List (String × Jv))

/-- Engine-run state: the store, the model clock (ticks once per store
operation) and the event trace. -/
structure ES where
  store : StoreState
  clock : Int
  events : List Ev

/-- Engine computations: state passing plus Python exceptions carrying the
structured payload `_normalise_exception` will unpack. -/
def EngM (α : Type) : Type := ES → Except Jv α × ES

instance : Monad EngM where
  pure a := fun s => (.ok a, s)
  bind x f := fun s =>
    match x s with
    | (.ok a, s1) => f a s1
    | (.error e, s1) => (.error e, s1)

/-- `raise RuntimeError(payload)`. -/
def throwErr {α : Type} (e : Jv) : EngM α := fun s => (.error e, s)

/-- The payload `_normalise_exception` produces for the `AttributeError`
raised by an ill-typed in-store merge or a missing endpoint object; its
`detail` string is abstracted (these paths are unreachable for records the
engine itself wrote and for requests admitted by `submit`). -/
def attrErrorPayload : Jv :=
  .obj [("error", .str "AttributeError"), ("detail", .str "attribute error")]

/-- `_normalise_exception` (fastapi_server.py:70-78) applied to the raised
payload: a dict payload gains `error = "runtime_error"` only when the key
is absent (`setdefault`); a non-dict single argument becomes
`runtime_error` with the args tuple as detail. -/
def normaliseExc (e : Jv) : Jv :=
  match e with
  | .obj kvs =>
      if (alookup kvs "error").isSome then .obj kvs
      else .obj (aset kvs "error" (.str "runtime_error"))
  | v => .obj [("error", .str "runtime_error"), ("detail", .arr [v])]

/-- One engine-side `update_fields` call: reads the model clock, logs the
updates mapping to the trace, applies the store operation; an ill-typed
merge raises. -/
def evUpdateFields (scfg : StoreCfg) (tid : String)
    (updates : List (String × Jv)) : EngM Unit := fun s =>
  let now := s.clock
  let s1 : ES := ES.mk s.store (s.clock + 1) (s.events ++ [Ev.update updates])
  match updateFields scfg s1.store tid updates now with
  | .notFound st1 => (.ok (), { s1 with store := st1 })
  | .updated _ st1 => (.ok (), { s1 with store := st1 })
  | .raised => (.error attrErrorPayload, s1)

/-- One engine-side `append_progress` call. -/
def evAppendProgress (scfg : StoreCfg) (tid : String) (message : String)
    (stage : Option String) (extra : Option Jv) : EngM Unit := fun s =>
  evUpdateFields scfg tid
    [("progress", .arr [progressEntry s.clock message stage extra])] s

/-- A successful endpoint submission is recorded in the trace; a transport
failure raises the structured payload. -/
def callSubmit (f : Jv → Except Jv String) (mkEv : Jv → Ev) (payload : Jv) :
    EngM String := fun s =>
  match f payload with
  | .ok jid => (.ok jid, ES.mk s.store s.clock (s.events ++ [mkEv payload]))
  | .error e => (.error e, s)

/-- An endpoint `wait`: returns the final status object or raises. -/
def callWait (f : String → Except Jv Jv) (jid : String) : EngM Jv := fun s =>
  (f jid, s)

/-- `final_result.setdefault("intermediate", {}).update(intermediate)`
guarded by `if intermediate:` (fastapi_server.py:1421-1422, 1431-1432).
An existing non-dict `intermediate` value in the final result would raise
`AttributeError`. -/
def attachIntermediate (finalResult intermediate : Jv) : EngM Jv :=
  if ¬ intermediate.pyTruthy then pure finalResult
  else
    match finalResult.jGet "intermediate" with
    | .obj ex =>
        pure (finalResult.jset "intermediate"
          (.obj (aupdate ex (objKvs intermediate))))
    | .null =>
        if finalResult.hasKey "intermediate" then throwErr attrErrorPayload
        else
          pure (finalResult.jset "intermediate"
            (.obj (aupdate [] (objKvs intermediate))))
    | _ => throwErr attrErrorPayload

/-- Stage 1 of `_execute` (fastapi_server.py:1231-1319): voice synthesis
when `script_text` is non-empty after stripping, otherwise the audio
precondition check.  Returns the optional SoVITS output, the possibly
rewritten request, and the `intermediate` mapping so far.  (Worker output
keys and `audio_base64` values are strings; a truthy non-string in those
fields lies outside the model.) -/
def runStage1 (scfg : StoreCfg) (ecfg : EngineCfg) (env : RemoteEnv)
    (tid : String) (r : PipelineRequest) (scriptText : String)
    (voiceKey : Option String) : EngM (Option Jv × PipelineRequest × Jv) := do
  if scriptText ≠ "" then
    if ¬ ecfg.sovitsConfigured then
      throwErr (.obj [("error", .str "sovits_not_configured"),
        ("detail", .str "RUNPOD_SOVITS_ENDPOINT is required for SoVITS")])
    else if ¬ optTruthy voiceKey then
      throwErr (.obj [("error", .str "missing_reference_audio"),
        ("detail", .str "reference_audio_key or audio_key is required")])
    else
      evUpdateFields scfg tid [("status", .str "running"),
        ("state", .str "running"), ("stage", .str "sovits")]
      evAppendProgress scfg tid "Submitting SoVITS job" (some "sovits") none
      let optionsKvs := objKvs r.sovits
      let soKeyPopped := (alookup optionsKvs "output_key").getD .null
      let options1 :=
        aremove (aremove (aremove optionsKvs "output_key") "reference_text")
          "reference_text_key"
      let options2 := aset options1 "ref_text_free" (.bool true)
      let outKeyAttr := r.sovits.jGet "output_key"
      let payloadOutKey := if outKeyAttr.pyTruthy then outKeyAttr else soKeyPopped
      let sovitsPayload : Jv := .obj [
        ("reference_audio_key", .str (voiceKey.getD "")),
        ("target_text", .str scriptText),
        ("reference_text", .str ""),
        ("ref_text_free", .bool true),
        ("output_key", payloadOutKey),
        ("options", .obj options2)]
      let jid ← callSubmit env.sovitsSubmit Ev.submitSovits sovitsPayload
      evUpdateFields scfg tid
        [("details", .obj [("sovits_job_id", .str jid)])]
      evAppendProgress scfg tid "SoVITS job submitted" (some "sovits")
        (some (.obj [("job_id", .str jid)]))
      let sovitsStatus ← callWait env.sovitsWait jid
      let sovitsOutput := sovitsStatus.jGet "output"
      if ¬ sovitsOutput.isObj then
        throwErr (.obj [("error", .str "no_sovits_output"),
          ("detail", sovitsStatus)])
      else
        let outputKey := sovitsOutput.jGet "output_key"
        if ¬ outputKey.pyTruthy then
          throwErr (.obj [("error", .str "missing_sovits_output_key"),
            ("detail", sovitsOutput)])
        else
          let audioB64 := sovitsOutput.jGet "audio_base64"
          let newB64 : Option String :=
            match audioB64 with
            | .str s => if s ≠ "" then some s else r.audio_base64
            | _ => r.audio_base64
          let newAudioKey : Option String :=
            match outputKey with
            | .str s => some s
            | _ => none
          let r1 : PipelineRequest :=
            { r with audio_base64 := newB64, audio_key := newAudioKey, reference_audio_key := voiceKey }
          let intermediate : Jv := .obj [("sovits", sovitsOutput)]
          evUpdateFields scfg tid
            [("details", .obj [("sovits_status", sovitsStatus)]),
             ("intermediate", intermediate)]
          evAppendProgress scfg tid "SoVITS completed" (some "sovits") none
          pure (some sovitsOutput, r1, intermediate)
  else
    if ¬ optTruthy r.audio_key ∧ ¬ optTruthy r.audio_base64 then
      throwErr (.obj [("error", .str "missing_audio_key"),
        ("detail", .str "audio_key or audio_base64 is required")])
    else
      pure (none, r, .obj [])

/-- The audio-only finish of `_execute` (fastapi_server.py:1322-1339):
equal to the source's `final_result = {}` possibly updated with the SoVITS
result or an `output_key`, stored as `final_result or None`. -/
def finishAudioOnly (scfg : StoreCfg) (tid : String)
    (sovitsResult : Option Jv) (r : PipelineRequest) : EngM Unit := do
  let finalKvs : List (String × Jv) :=
    match sovitsResult with
    | some s => aupdate [] (objKvs s)
    | none =>
      match r.audio_key with
      | some ak => if ak ≠ "" then [("output_key", .str ak)] else []
      | none => []
  evUpdateFields scfg tid [("status", .str "completed"),
    ("state", .str "completed"), ("stage", .str "completed"),
    ("result", if finalKvs.isEmpty then .null else .obj finalKvs),
    ("error", .null)]
  evAppendProgress scfg tid "Audio-only pipeline completed"
    (some "completed") none

/-- Stage 3 of `_execute` (fastapi_server.py:1386-1444): face-swap when
`source_keys` is non-empty, then the terminal `completed` write.  (The
source aliases `final_result` to the face status's `output`, so the
injected `intermediate` also appears inside the recorded
`facefusion_status`; the model stores the unmutated status, a difference
confined to that `details` entry.) -/
def runFaceAndFinish (scfg : StoreCfg) (ecfg : EngineCfg) (env : RemoteEnv)
    (tid : String) (r : PipelineRequest) (requestDict : Jv)
    (wavResult : Jv) (intermediate2 : Jv) : EngM Unit := do
  if r.source_keys ≠ [] then
    if ¬ ecfg.faceConfigured then
      throwErr (.obj [("error", .str "facefusion_not_configured"),
        ("detail", .str "RUNPOD_FACEFUSION_ENDPOINT is required for facefusion")])
    else
      evUpdateFields scfg tid [("stage", .str "facefusion")]
      evAppendProgress scfg tid "Submitting FaceFusion job"
        (some "facefusion") none
      let facePayload : Jv := .obj [("request", requestDict),
        ("wav2lip",
          if wavResult.isObj then wavResult.jGet "wav2lip" else wavResult)]
      let faceJobId ← callSubmit env.faceSubmit Ev.submitFace facePayload
      evUpdateFields scfg tid
        [("details", .obj [("facefusion_job_id", .str faceJobId)])]
      evAppendProgress scfg tid "FaceFusion job submitted" (some "facefusion")
        (some (.obj [("job_id", .str faceJobId)]))
      let faceStatus ← callWait env.faceWait faceJobId
      let faceOutput := faceStatus.jGet "output"
      if ¬ faceOutput.isObj then
        throwErr (.obj [("error", .str "no_facefusion_output"),
          ("detail", faceStatus)])
      else
        let finalResult ← attachIntermediate faceOutput intermediate2
        evAppendProgress scfg tid "FaceFusion completed" (some "facefusion") none
        evUpdateFields scfg tid
          [("details", .obj [("facefusion_status", faceStatus)])]
        evUpdateFields scfg tid [("status", .str "completed"),
          ("state", .str "completed"), ("stage", .str "completed"),
          ("result", finalResult), ("error", .null)]
        evAppendProgress scfg tid "Pipeline completed" (some "completed") none
  else
    let finalResult ← attachIntermediate wavResult intermediate2
    evUpdateFields scfg tid [("status", .str "completed"),
      ("state", .str "completed"), ("stage", .str "completed"),
      ("result", finalResult), ("error", .null)]
    evAppendProgress scfg tid "Pipeline completed" (some "completed") none

/-- Stage 2 of `_execute` (fastapi_server.py:1341-1384): lip-sync, then the
rest of the pipeline. -/
def runWavAndFace (scfg : StoreCfg) (ecfg : EngineCfg) (env : RemoteEnv)
    (tid : String) (r : PipelineRequest) (intermediate : Jv) :
    EngM Unit := do
  evUpdateFields scfg tid [("status", .str "running"),
    ("state", .str "running"), ("stage", .str "wav2lip")]
  evAppendProgress scfg tid "Submitting Wav2Lip job" (some "wav2lip") none
  let requestDict := requestToDict r
  if ¬ ecfg.wavConfigured then
    throwErr attrErrorPayload
  else
    let wavJobId ← callSubmit env.wavSubmit Ev.submitWav requestDict
    evUpdateFields scfg tid
      [("details", .obj [("wav2lip_job_id", .str wavJobId)])]
    evAppendProgress scfg tid "Wav2Lip job submitted" (some "wav2lip")
      (some (.obj [("job_id", .str wavJobId)]))
    let wavStatus ← callWait env.wavWait wavJobId
    let wavOutput := wavStatus.jGet "output"
    let wavResult : Jv ←
      match wavOutput with
      | .obj kvs => pure (.obj kvs)
      | .str s => pure (.obj [("output_url", .str s)])
      | _ =>
          throwErr (.obj [("error", .str "no_wav2lip_output"),
            ("detail", wavStatus)])
    let intermediate2 := intermediate.jset "wav2lip" wavResult
    evUpdateFields scfg tid [("intermediate", intermediate2),
      ("details", .obj [("wav2lip_status", wavStatus)])]
    evAppendProgress scfg tid "Wav2Lip completed" (some "wav2lip") none
    runFaceAndFinish scfg ecfg env tid r requestDict wavResult intermediate2

/-- The `try` body of `JobManager._execute` (fastapi_server.py:1222-1444). -/
def executeBody (scfg : StoreCfg) (ecfg : EngineCfg) (env : RemoteEnv)
    (tid : String) (r0 : PipelineRequest) : EngM Unit := do
  let scriptText := pyStrip (r0.script_text.getD "")
  let voiceKey : Option String :=
    if optTruthy r0.reference_audio_key then r0.reference_audio_key
    else r0.audio_key
  let (sovitsResult, r1, intermediate) ←
    runStage1 scfg ecfg env tid r0 scriptText voiceKey
  if ¬ optTruthy r1.target_key ∧ r1.source_keys = [] then
    finishAudioOnly scfg tid sovitsResult r1
  else
    runWavAndFace scfg ecfg env tid r1 intermediate

/-- `JobManager._execute` (fastapi_server.py:1217-1458): the body wrapped
in the terminal exception handler, which normalises the exception, writes
the `failed` record and appends the final progress entry.  (An exception
raised inside the handler itself would escape `_execute`; the model keeps
the state reached at that point.) -/
def execute (scfg : StoreCfg) (ecfg : EngineCfg) (env : RemoteEnv)
    (tid : String) (r0 : PipelineRequest) (s : ES) : ES :=
  match executeBody scfg ecfg env tid r0 s with
  | (.ok _, s1) => s1
  | (.error e, s1) =>
      let errorPayload := normaliseExc e
      let handler : EngM Unit := do
        evUpdateFields scfg tid [("status", .str "failed"),
          ("state", .str "failed"), ("stage", .str "failed"),
          ("error", errorPayload)]
        evAppendProgress scfg tid "Pipeline failed" (some "failed")
          (some errorPayload)
      (handler s1).2

/-- The initial task record written by `JobManager.submit`
(fastapi_server.py:1194-1207). -/
def initialRecord (tid : String) (r : PipelineRequest) (now : Int) : Jv :=
  .obj [("task_id", .str tid), ("status", .str "pending"),
        ("state", .str "pending"), ("stage", .str "queued"),
        ("created_at", .str (isoOf now)), ("updated_at", .str (isoOf now)),
        ("request", requestToDict r), ("result", .null), ("error", .null),
        ("progress", .arr []), ("intermediate", .null),
        ("details", .obj [])]

/-- The store state right after `JobManager.submit` wrote the initial
record (fastapi_server.py:1208). -/
def submitState (scfg : StoreCfg) (st : StoreState) (tid : String)
    (r : PipelineRequest) (now : Int) : StoreState :=
  (storeWrite scfg st (initialRecord tid r now) now).2

/-! ## Auxiliary definitions for the claim statements -/

/-- The character class `[A-Za-z0-9._-]` stated by the specification for
backup-file naming (spec §4.2 path hardening), written from the spec's
words for comparison with the code's `backupKeep`. -/
def claimKeepC8 (c : Char) : Bool :=
  (65 ≤ c.toNat && c.toNat ≤ 90) || (97 ≤ c.toNat && c.toNat ≤ 122) ||
  (48 ≤ c.toNat && c.toNat ≤ 57) || c == '.' || c == '_' || c == '-'

/-- The backup file name as described by the specification: filter the
task ID to `[A-Za-z0-9._-]`, fall back to `task` when empty, append
`.json`. -/
def specBackupName (tid : String) : String :=
  let stem := String.mk (tid.data.filter claimKeepC8)
  (if stem = "" then "task" else stem) ++ ".json"

/-- The cache state after `get` rehydrates a disk payload with a fresh
TTL. -/
def rehydrate (cfg : StoreCfg) (st : StoreState) (tid : String)
    (payload : Jv) (now : Int) : StoreState :=
  let entry := CacheEntry.mk (some payload) (now + cfg.ttl)
  { st with cache := aset st.cache (storeKey cfg tid) entry }

/-- The existing progress list of a record (empty when the key is
absent). -/
def progListOf (job : Jv) : List Jv :=
  match job.jGet "progress" with
  | .arr xs => xs
  | _ => []

/-- The typing conditions under which `update_fields`' merge loop cannot
raise: a dict-valued `details` update meets a dict-or-absent `details`
field, a list-valued `progress` update meets a list-or-absent `progress`
field, and the dict-valued `details` update has no duplicate keys. -/
def wellTypedFor (job : Jv) (updates : List (String × Jv)) : Prop :=
  (∀ v, alookup updates "details" = some v → v.isObj →
      ((job.jGet "details").isObj ∨ job.hasKey "details" = false)) ∧
  (∀ v, alookup updates "progress" = some v → v.isArr →
      ((job.jGet "progress").isArr ∨ job.hasKey "progress" = false)) ∧
  (∀ d, alookup updates "details" = some (.obj d) → (d.map Prod.fst).Nodup)

/-- The three remote stages. -/
inductive StageTag where
  | sovits
  | wav2lip
  | facefusion
deriving Repr, DecidableEq

/-- The worker submissions contained in an engine trace, in order. -/
def submissionsOf (evs : List Ev) : List StageTag :=
  evs.filterMap fun e =>
    match e with
    | .submitSovits _ => some .sovits
    | .submitWav _ => some .wav2lip
    | .submitFace _ => some .facefusion
    | .update _ => none

/-- Stage-1 selection: `script_text` non-empty after stripping
(fastapi_server.py:1227, 1231). -/
def sovitsSelected (r : PipelineRequest) : Prop :=
  pyStrip (r.script_text.getD "") ≠ ""

/-- Stage-2 selection: `target_key` or `source_keys` present
(fastapi_server.py:1322). -/
def wavSelected (r : PipelineRequest) : Prop :=
  optTruthy r.target_key = true ∨ r.source_keys ≠ []

/-- Stage-3 selection: `source_keys` non-empty
(fastapi_server.py:1386). -/
def faceSelected (r : PipelineRequest) : Prop :=
  r.source_keys ≠ []

/-- A sequence of `append_progress` calls (clock reading, message, stage,
extra) run against the store; a raised merge error aborts the sequence
(it would propagate to the caller). -/
def runAppends (cfg : StoreCfg) (tid : String) :
    List (Int × String × Option String × Option Jv) → StoreState → StoreState
  | [], st => st
  | c :: rest, st =>
    match appendProgress cfg st tid c.1 c.2.1 c.2.2.1 c.2.2.2 with
    | .updated _ st1 => runAppends cfg tid rest st1
    | .notFound st1 => runAppends cfg tid rest st1
    | .raised => st

/-- The progress entry a call of `runAppends` produces. -/
def entryOfCall (c : Int × String × Option String × Option Jv) : Jv :=
  progressEntry c.1 c.2.1 c.2.2.1 c.2.2.2

/-- Well-formedness of the cached record a live engine works on: the cache
holds a parse-able, non-empty dict record carrying its own string
`task_id`, whose `details` field is a dict (or absent) and whose
`progress` field is a list (or absent).  `JobManager.submit` establishes
it and every engine-issued update preserves it. -/
def StoreOk (cfg : StoreCfg) (tid : String) (st : StoreState) : Prop :=
  ∃ kvs e, alookup st.cache (storeKey cfg tid) =
      some (CacheEntry.mk (some (.obj kvs)) e) ∧
    kvs ≠ [] ∧
    alookup kvs "task_id" = some (.str tid) ∧
    ((∃ d, alookup kvs "details" = some (.obj d)) ∨
      alookup kvs "details" = none) ∧
    ((∃ ps, alookup kvs "progress" = some (.arr ps)) ∨
      alookup kvs "progress" = none)

/-- Shape of every updates mapping the engine passes to the store:
`details` values are dicts, `progress` values are lists, and `task_id` is
never touched. -/
def enginePairsOk (u : List (String × Jv)) : Prop :=
  ∀ kv ∈ u, (kv.1 = "details" → kv.2.isObj = true) ∧
    (kv.1 = "progress" → kv.2.isArr = true) ∧ kv.1 ≠ "task_id"

/-- The shapes of updates mappings `JobManager._execute` passes to the
store, used to prove trace invariants: running-transition writes,
single-entry progress appends, details/intermediate writes, the
facefusion stage marker, terminal `completed` writes (whose `result` may
be null only on the audio-only path of a request with no script text and
no `audio_key`), and terminal `failed` writes carrying a dict error. -/
def engineUpdateShape (r0 : PipelineRequest) (u : List (String × Jv)) :
    Prop :=
  (∃ stg, u = [("status", .str "running"), ("state", .str "running"),
    ("stage", .str stg)]) ∨
  (∃ entry, u = [("progress", .arr [entry])]) ∨
  (∃ dkvs, u = [("details", .obj dkvs)]) ∨
  (∃ dkvs im, u = [("details", .obj dkvs), ("intermediate", im)]) ∨
  (∃ im dkvs, u = [("intermediate", im), ("details", .obj dkvs)]) ∨
  (u = [("stage", .str "facefusion")]) ∨
  (∃ res, u = [("status", .str "completed"), ("state", .str "completed"),
      ("stage", .str "completed"), ("result", res), ("error", .null)] ∧
    (res = .null → pyStrip (r0.script_text.getD "") = "" ∧
      optTruthy r0.audio_key = false)) ∨
  (∃ err, u = [("status", .str "failed"), ("state", .str "failed"),
      ("stage", .str "failed"), ("error", err)] ∧ err.isObj = true)

/-- The trace predicate behind claims C1 and C7: submissions are
unconstrained, update events have one of the engine's shapes. -/
def engineEvOk (r0 : PipelineRequest) (e : Ev) : Prop :=
  match e with
  | .update u => engineUpdateShape r0 u
  | _ => True

/-- Shape of every payload the engine submits to the face-swap worker:
the request snapshot under `request`, and under `wav2lip` not a stage-2
output itself but the `wav2lip` member of a dict (`wav_result` is always
a dict when stage 3 runs, so the source's `isinstance` guard always
takes its first arm). -/
def facePayloadOk (e : Ev) : Prop :=
  match e with
  | .submitFace p => ∃ (q : Jv) (w : Jv), w.isObj = true ∧
      p = .obj [("request", q), ("wav2lip", w.jGet "wav2lip")]
  | _ => True

/-- Any face-swap submission carries exactly the given request snapshot
and, under `wav2lip`, the `wav2lip` member of the value recorded as
`intermediate.wav2lip`. -/
def facePayloadIs (requestDict intermediate2 : Jv) (e : Ev) : Prop :=
  ∀ p2, e = Ev.submitFace p2 →
    p2 = .obj [("request", requestDict),
      ("wav2lip", (intermediate2.jGet "wav2lip").jGet "wav2lip")]

/-- `m` only adds trace events satisfying `P`. -/
def EngM.keepsEv {α : Type} (m : EngM α) (P : Ev → Prop) : Prop :=
  ∀ s, (∀ e ∈ s.events, P e) → ∀ e ∈ (m s).2.events, P e

/-- Every successful result of `m` satisfies `Q`. -/
def EngM.okImplies {α : Type} (m : EngM α) (Q : α → Prop) : Prop :=
  ∀ s r s1, m s = (.ok r, s1) → Q r

/-- Demonstration store configuration (the deployment defaults). -/
def demoStoreCfg : StoreCfg := StoreCfg.mk "ff:task" 604800 604800 true

/-- All three workers configured. -/
def demoEngineCfg : EngineCfg := EngineCfg.mk true true true

/-- An oracle for runs that perform no remote call. -/
def demoDeadEnv : RemoteEnv :=
  RemoteEnv.mk (fun _ => .error .null) (fun _ => .error .null)
    (fun _ => .error .null) (fun _ => .error .null)
    (fun _ => .error .null) (fun _ => .error .null)

/-- A pipeline request carrying only inline audio: no script text, no
audio key, no target, no sources. -/
def demoReqB64 : PipelineRequest :=
  PipelineRequest.mk [] none none (some "xx") none none none none
    (.obj []) true (.obj []) (.obj [])

/-- The store right after `submit` wrote `demoReqB64`'s initial record. -/
def demoStoreB64 : StoreState :=
  submitState demoStoreCfg (StoreState.mk [] []) "t1" demoReqB64 0

/-- A SoVITS worker output. -/
def demoSovitsOut : Jv :=
  .obj [("output_key", .str "out/s.wav"), ("audio_base64", .str "QUJD")]

/-- A Wav2Lip worker output carrying a nested `wav2lip` result, the shape
`run_wav2lip` produces (pipeline.py:619-625). -/
def demoWavOut : Jv :=
  .obj [("status", .str "completed"), ("output_key", .str "out/w.mp4"),
    ("wav2lip", .obj [("inner", .str "x")])]

/-- A FaceFusion worker output. -/
def demoFaceOut : Jv := .obj [("output_key", .str "out/f.mp4")]

/-- An oracle where every submit succeeds and every wait returns a
COMPLETED status with the demo outputs. -/
def demoOkEnv : RemoteEnv :=
  RemoteEnv.mk (fun _ => .ok "sj")
    (fun _ => .ok (.obj [("status", .str "COMPLETED"),
      ("output", demoSovitsOut)]))
    (fun _ => .ok "wj")
    (fun _ => .ok (.obj [("status", .str "COMPLETED"),
      ("output", demoWavOut)]))
    (fun _ => .ok "fj")
    (fun _ => .ok (.obj [("status", .str "COMPLETED"),
      ("output", demoFaceOut)]))

/-- The same oracle but with the lip-sync worker returning a bare string
URL as its output. -/
def demoOkEnvUrl : RemoteEnv :=
  RemoteEnv.mk (fun _ => .ok "sj")
    (fun _ => .ok (.obj [("status", .str "COMPLETED"),
      ("output", demoSovitsOut)]))
    (fun _ => .ok "wj")
    (fun _ => .ok (.obj [("status", .str "COMPLETED"),
      ("output", .str "https://u")]))
    (fun _ => .ok "fj")
    (fun _ => .ok (.obj [("status", .str "COMPLETED"),
      ("output", demoFaceOut)]))

/-- A full-chain request: script text, voice reference, target video and
one source image. -/
def demoReqFull : PipelineRequest :=
  PipelineRequest.mk ["in/f.png"] (some "in/v.mp4") none none
    (some "refs/a.wav") (some "Hi") none none
    (.obj [("output_key", .null)]) true (.obj []) (.obj [])

/-- The store right after `submit` wrote `demoReqFull`'s initial record. -/
def demoStoreFull : StoreState :=
  submitState demoStoreCfg (StoreState.mk [] []) "t2" demoReqFull 0

/-- A cached record with an empty progress list, for exercising
`append_progress` sequences. -/
def demoStoreC7 : StoreState :=
  StoreState.mk [("ff:task:t", CacheEntry.mk
    (some (.obj [("task_id", .str "t"), ("progress", .arr [])])) 50)] []

/-- The two `append_progress` calls of the demonstration sequence. -/
def demoCallsC7 : List (Int × String × Option String × Option Jv) :=
  [(3, "one", none, none), (4, "two", some "s2", none)]

/-- Combined trace/result soundness of an engine computation: every event
it adds satisfies `P` and every successful result satisfies `Q`. -/
def EngM.sound {α : Type} (m : EngM α) (P : Ev → Prop) (Q : α → Prop) :
    Prop :=
  m.keepsEv P ∧ m.okImplies Q

instance (r : PipelineRequest) : Decidable (sovitsSelected r) :=
  inferInstanceAs (Decidable (pyStrip (r.script_text.getD "") ≠ ""))

instance (r : PipelineRequest) : Decidable (wavSelected r) :=
  inferInstanceAs
    (Decidable (optTruthy r.target_key = true ∨ r.source_keys ≠ []))

instance (r : PipelineRequest) : Decidable (faceSelected r) :=
  inferInstanceAs (Decidable (r.source_keys ≠ []))

/-- The stage list named by the specification's selection rule: voice
synthesis iff the stripped `script_text` is non-empty, lip-sync iff
`target_key` or `source_keys` is present, face-swap iff `source_keys` is
non-empty, in pipeline order. -/
def stageSelection (r : PipelineRequest) : List StageTag :=
  (if sovitsSelected r then [.sovits] else []) ++
  (if wavSelected r then [.wav2lip] else []) ++
  (if faceSelected r then [.facefusion] else [])

/-- Exact-submission soundness: a successful run of `m` appends to the
trace exactly the worker submissions `l`, in order, and its result
satisfies `Q`; a failing run appends some initial segment of `l`. -/
def EngM.subsSound {α : Type} (m : EngM α) (l : List StageTag)
    (Q : α → Prop) : Prop :=
  (∀ s r s1, m s = (.ok r, s1) →
    submissionsOf s1.events = submissionsOf s.events ++ l ∧ Q r) ∧
  (∀ s er s1, m s = (.error er, s1) →
    ∃ l2 l3, l = l2 ++ l3 ∧
      submissionsOf s1.events = submissionsOf s.events ++ l2)

/-! ## Helper lemmas -/

theorem alookup_aset_self {α : Type} (kvs : List (String × α)) (k : String)
    (v : α) : alookup (aset kvs k v) k = some v := by
  induction kvs with
  | nil => simp [aset, alookup]
  | cons kv rest ih =>
    obtain ⟨k', v'⟩ := kv
    by_cases h : k' = k
    · simp [aset, alookup, h]
    · simp [aset, alookup, h, ih]

theorem alookup_aset_ne {α : Type} (kvs : List (String × α)) (k k2 : String)
    (v : α) (h : k ≠ k2) : alookup (aset kvs k v) k2 = alookup kvs k2 := by
  induction kvs with
  | nil => simp [aset, alookup, h]
  | cons kv rest ih =>
    obtain ⟨k', v'⟩ := kv
    by_cases h1 : k' = k
    · subst h1
      simp [aset, alookup, h]
    · simp [aset, alookup, h1, ih]

theorem jGet_jset_self (j : Jv) (hj : j.isObj = true) (k : String) (v : Jv) :
    (j.jset k v).jGet k = v := by
  cases j <;> simp_all [Jv.isObj, Jv.jset, Jv.jGet, alookup_aset_self]

theorem jGet_jset_ne (j : Jv) (k k2 : String) (v : Jv) (h : k ≠ k2) :
    (j.jset k v).jGet k2 = j.jGet k2 := by
  cases j <;> simp [Jv.jset, Jv.jGet, alookup_aset_ne _ _ _ _ h]

theorem isObj_jset (j : Jv) (hj : j.isObj = true) (k : String) (v : Jv) :
    (j.jset k v).isObj = true := by
  cases j <;> simp_all [Jv.isObj, Jv.jset]

/-! ## Claim C3: poll classification in `RunPodEndpoint.wait` -/

/-- C3 counterexample: a status whose `output` is a mapping containing the
key `error` with a falsy value.  The claim says the poll fails with
`runpod_output_error` carrying the output, regardless of the tag; the code
tests the truthiness of `output.get("error")`, not key membership, so this
poll is classified as `runpod_job_failed` instead. -/
theorem runpod_wait_error_key_counterexample :
    Jv.hasKey ((Jv.obj [("status", Jv.str "FAILED"),
        ("output", Jv.obj [("error", Jv.null)])]).jGet "output") "error" = true ∧
    classifyPoll (Jv.obj [("status", Jv.str "FAILED"),
        ("output", Jv.obj [("error", Jv.null)])]) =
      .errJobFailed (Jv.obj [("error", Jv.null)]) ∧
    classifyPoll (Jv.obj [("status", Jv.str "FAILED"),
        ("output", Jv.obj [("error", Jv.null)])]) ≠
      .errOutputError ((Jv.obj [("status", Jv.str "FAILED"),
        ("output", Jv.obj [("error", Jv.null)])]).jGet "output") := by
  refine ⟨rfl, rfl, ?_⟩
  intro h
  exact PollStep.noConfusion h

/-- C3 (amended): one poll of `wait(jobID)` is classified with this
precedence: if the `output` is a mapping whose `error` value is truthy,
the poll fails with `runpod_output_error` carrying the output regardless
of the tag; otherwise if the upper-cased tag is a success tag, or the tag
is empty and the output is truthy, the status is returned; otherwise a
failure tag fails with `runpod_job_failed` whose detail is the output
when the output is a mapping and the whole status otherwise. -/
theorem runpod_wait_poll_classification (status output : Jv)
    (hout : status.jGet "output" = output) :
    ((output.isObj = true ∧ (output.jGet "error").pyTruthy = true) →
        classifyPoll status = .errOutputError output) ∧
    (¬ (output.isObj = true ∧ (output.jGet "error").pyTruthy = true) →
        ((tagStr status ∈ successTags ∨
            (tagStr status = "" ∧ output.pyTruthy = true)) →
          classifyPoll status = .retOk status) ∧
        (¬ (tagStr status ∈ successTags ∨
            (tagStr status = "" ∧ output.pyTruthy = true)) →
          tagStr status ∈ failureTags →
          classifyPoll status = .errJobFailed
            (if output.isObj then output else status))) := by
  subst hout
  refine ⟨fun h => ?_, fun h1 => ⟨fun h2 => ?_, fun h2 h3 => ?_⟩⟩ <;>
    simp only [classifyPoll]
  · rw [if_pos h]
  · rw [if_neg h1, if_pos h2]
  · rw [if_neg h1, if_neg h2, if_pos h3]

/-- Witness for C3's amended theorem at a concrete poll. -/
theorem runpod_wait_poll_classification_witness :
    classifyPoll (Jv.obj [("status", Jv.str "FAILED"),
        ("output", Jv.obj [("error", Jv.str "oom")])]) =
      .errOutputError (Jv.obj [("error", Jv.str "oom")]) :=
  (runpod_wait_poll_classification _ _ rfl).1 ⟨rfl, rfl⟩

/-! ## Claim C9: timeout gating in `RunPodEndpoint.wait` -/

/-- C9: `wait` raises `runpod_job_timeout` only when its `timeout` argument
is truthy — with `None` or `0` the loop never takes the timeout branch —
and the elapsed-time check runs only after a poll has been classified, so
the first poll's classification decides regardless of the elapsed time. -/
theorem runpod_wait_timeout_gating (timeout : Option Int)
    (polls : List PollObs) :
    (timeoutTruthy timeout = false →
        ∀ tag, waitRun timeout polls ≠ .timedOut tag) ∧
    (∀ p rest, polls = p :: rest →
        (∀ s, classifyPoll p.status = .retOk s →
            waitRun timeout polls = .ok s) ∧
        (∀ d, classifyPoll p.status = .errOutputError d →
            waitRun timeout polls = .outputError d) ∧
        (∀ d, classifyPoll p.status = .errJobFailed d →
            waitRun timeout polls = .jobFailed d)) := by
  constructor
  · intro hfalse
    induction polls with
    | nil =>
      intro tag h
      exact WaitOutcome.noConfusion h
    | cons p rest ih =>
      intro tag
      simp only [waitRun]
      cases hc : classifyPoll p.status with
      | retOk s => exact fun h => WaitOutcome.noConfusion h
      | errOutputError d => exact fun h => WaitOutcome.noConfusion h
      | errJobFailed d => exact fun h => WaitOutcome.noConfusion h
      | keepPolling =>
        have hhit : waitTimeoutHit timeout p.elapsed = false := by
          simp [waitTimeoutHit, hfalse]
        rw [hhit]
        simp only [Bool.false_eq_true, if_false]
        exact ih tag
  · rintro p rest rfl
    refine ⟨fun s hs => ?_, fun d hd => ?_, fun d hd => ?_⟩
    · simp only [waitRun]
      rw [hs]
    · simp only [waitRun]
      rw [hd]
    · simp only [waitRun]
      rw [hd]

/-- Witness for C9: with a two-second timeout already exceeded at the
first poll (elapsed 100), a success status still returns; and with
`timeout = None` a stuck queue never yields a timeout. -/
theorem runpod_wait_timeout_gating_witness :
    waitRun (some 2) [PollObs.mk (Jv.obj [("status", Jv.str "COMPLETED")]) 100] =
      .ok (Jv.obj [("status", Jv.str "COMPLETED")]) ∧
    waitRun none [PollObs.mk (Jv.obj [("status", Jv.str "IN_QUEUE")]) 100] ≠
      .timedOut "IN_QUEUE" := by
  constructor
  · exact ((runpod_wait_timeout_gating (some 2)
      [PollObs.mk (Jv.obj [("status", Jv.str "COMPLETED")]) 100]).2
      (PollObs.mk (Jv.obj [("status", Jv.str "COMPLETED")]) 100) [] rfl).1
      (Jv.obj [("status", Jv.str "COMPLETED")]) rfl
  · exact (runpod_wait_timeout_gating none
      [PollObs.mk (Jv.obj [("status", Jv.str "IN_QUEUE")]) 100]).1 rfl "IN_QUEUE"

/-! ## Claim C10: `JobStore.get` on an unparseable cache hit -/

/-- C10: when the cache holds a value for the key but that value fails to
parse as JSON, `get` returns `None` with the state unchanged: the disk
mirror is not consulted (the result is the same whatever the disk holds)
and neither the cache entry nor the disk copy is purged. -/
theorem jobstore_get_corrupt_cache_hit (cfg : StoreCfg) (st : StoreState)
    (tid : String) (now e : Int)
    (hc : alookup st.cache (storeKey cfg tid) = some (CacheEntry.mk none e)) :
    storeGet cfg st tid now = .ret none st := by
  unfold storeGet
  rw [hc]

/-- Witness for C10: an unparseable cache hit next to a perfectly valid
fresh disk record still yields `None` and leaves both stores untouched. -/
theorem jobstore_get_corrupt_cache_hit_witness :
    storeGet (StoreCfg.mk "ff:task" 10 20 true)
      (StoreState.mk [("ff:task:t", CacheEntry.mk none 5)]
        [("t.json", some (Jv.obj [("payload", Jv.obj [("task_id", Jv.str "t")]),
          ("expires_at", Jv.num 99)]))])
      "t" 7 =
    .ret none (StoreState.mk [("ff:task:t", CacheEntry.mk none 5)]
      [("t.json", some (Jv.obj [("payload", Jv.obj [("task_id", Jv.str "t")]),
        ("expires_at", Jv.num 99)]))]) :=
  jobstore_get_corrupt_cache_hit _ _ "t" 7 5 rfl

/-! ## Claim C8: backup file naming in `JobStore._backup_path` -/

theorem pyIsAlnumN_ascii :
    ∀ n, n < 128 → pyIsAlnumN n =
      ((65 ≤ n && n ≤ 90) || (97 ≤ n && n ≤ 122) || (48 ≤ n && n ≤ 57)) := by
  decide

theorem backupKeep_ascii (c : Char) (h : c.toNat < 128) :
    backupKeep c = claimKeepC8 c := by
  unfold backupKeep claimKeepC8 pyIsAlnum
  rw [pyIsAlnumN_ascii _ h]
  cases hd : (c == '.') <;> cases hu : (c == '_') <;> cases hm : (c == '-') <;>
    simp [hd, hu, hm, Bool.or_comm, Bool.or_assoc, Bool.or_left_comm]

/-- C8 counterexample: the task ID `"é"`.  Python's `isalnum` accepts the
Latin-1 letter `é`, so the code derives the file name `é.json`; the claim's
filter `[A-Za-z0-9._-]` would discard it and fall back to the literal
`task`. -/
theorem backup_path_counterexample :
    backupPath (StoreCfg.mk "ff:task" 604800 604800 true) "é" =
      some "é.json" ∧
    specBackupName "é" = "task.json" ∧
    backupPath (StoreCfg.mk "ff:task" 604800 604800 true) "é" ≠
      some (specBackupName "é") := by
  refine ⟨rfl, rfl, ?_⟩
  intro h
  rw [show specBackupName "é" = "task.json" from rfl] at h
  have h2 : "é.json" = "task.json" := Option.some.inj h
  exact absurd h2 (by decide)

/-- C8 (amended): when a persist directory is configured, the on-disk
backup file name keeps exactly the ID's characters that are alphanumeric
in Python's Unicode sense (`str.isalnum`) or in `-_.`, falling back to the
literal `task` when nothing survives, with a `.json` suffix in the persist
directory; restricted to ASCII task IDs this coincides with the claimed
filter `[A-Za-z0-9._-]`. -/
theorem backup_path_spec_ascii (cfg : StoreCfg) (tid : String)
    (hp : cfg.persistEnabled = true)
    (hascii : ∀ c ∈ tid.data, c.toNat < 128) :
    backupPath cfg tid = some (specBackupName tid) := by
  unfold backupPath specBackupName
  rw [hp]
  have hfilt : tid.data.filter backupKeep = tid.data.filter claimKeepC8 :=
    List.filter_congr (fun c hc => backupKeep_ascii c (hascii c hc))
  simp only [hfilt, if_true]

/-- Witness for C8's amended theorem on an ASCII ID with characters both
kept and discarded. -/
theorem backup_path_spec_ascii_witness :
    backupPath (StoreCfg.mk "p" 1 1 true) "up/a b.wav" =
      some "upab.wav.json" :=
  backup_path_spec_ascii (StoreCfg.mk "p" 1 1 true) "up/a b.wav" rfl
    (by decide)

/-! ## Claim C5: disk fallback in `JobStore.get` -/

/-- C5 counterexample: a disk file whose content parses to a JSON array —
a corrupt record with a non-mapping payload in the claim's sense.  The
claim says `get` deletes it and returns null; the code raises an
uncaught `AttributeError` at `data.get("expires_at")`, returning no
value and purging nothing. -/
theorem jobstore_get_nondict_backup_counterexample :
    storeGet (StoreCfg.mk "ff:task" 10 20 true)
      (StoreState.mk [] [("t.json", some (Jv.arr [Jv.num 1]))]) "t" 7 =
      .raised (StoreState.mk [] [("t.json", some (Jv.arr [Jv.num 1]))]) ∧
    (StoreState.mk [] [("t.json", some (Jv.arr [Jv.num 1]))]).disk ≠
      (purgeBackup (StoreState.mk [] [("t.json", some (Jv.arr [Jv.num 1]))])
        "t.json").disk :=
  ⟨rfl, List.cons_ne_nil _ _⟩

/-- C5 (amended): when the cache entry is absent, `get` reads the disk
mirror: (i) a backup written by the store (a non-empty dict payload under
a positive numeric `expires_at`) is returned and re-installed into the
cache with a fresh TTL while `expires_at` has not passed; (ii) a passed
`expires_at` is purged with `None` returned, as are (iii) an unparseable
file and (iv) a dict wrapper carrying a non-mapping `payload` member
under a valid unexpired stamp; but (v) a file parsing to a non-dict top
level raises an uncaught `AttributeError`, and (vi) a dict wrapper whose
truthy `expires_at` is neither a number nor a bool raises an uncaught
`TypeError` — in those two cases `get` returns no value and nothing is
purged. -/
theorem jobstore_get_disk_fallback (cfg : StoreCfg) (st : StoreState)
    (tid p : String) (now e : Int) (job : Jv)
    (hpath : backupPath cfg tid = some p)
    (hcache : alookup st.cache (storeKey cfg tid) = none) :
    (alookup st.disk p =
        some (some (.obj [("payload", job), ("expires_at", .num e)])) →
      job.isObj = true → job.pyTruthy = true → 0 < e → ¬ e < now →
      storeGet cfg st tid now =
        .ret (some job) (rehydrate cfg st tid job now)) ∧
    (alookup st.disk p =
        some (some (.obj [("payload", job), ("expires_at", .num e)])) →
      0 < e → e < now →
      storeGet cfg st tid now = .ret none (purgeBackup st p)) ∧
    (alookup st.disk p = some none →
      storeGet cfg st tid now = .ret none (purgeBackup st p)) ∧
    (alookup st.disk p =
        some (some (.obj [("payload", job), ("expires_at", .num e)])) →
      job.isObj = false → 0 < e → ¬ e < now →
      storeGet cfg st tid now = .ret none (purgeBackup st p)) ∧
    (∀ d, alookup st.disk p = some (some d) → d.isObj = false →
      storeGet cfg st tid now = .raised st) ∧
    (∀ kvs x, alookup st.disk p = some (some (.obj kvs)) →
      alookup kvs "expires_at" = some x → x.pyTruthy = true →
      (∀ n, x ≠ .num n) → (∀ b, x ≠ .bool b) →
      storeGet cfg st tid now = .raised st) := by
  refine ⟨?_, ?_, ?_, ?_, ?_, ?_⟩
  · intro hdisk hobj htr hpos hnow
    unfold storeGet readBackup
    simp only [hcache, hpath, hdisk]
    have h1 : alookup [("payload", job), ("expires_at", Jv.num e)]
        "expires_at" = some (Jv.num e) := by
      simp [alookup]
    have h2 : alookup [("payload", job), ("expires_at", Jv.num e)]
        "payload" = some job := by
      simp [alookup]
    rw [h1, h2]
    dsimp only [Option.getD]
    have htre : (Jv.num e).pyTruthy = true := by
      simp [Jv.pyTruthy]
      omega
    rw [if_pos htre, if_neg hnow, if_neg (fun h => h hobj)]
    dsimp only
    rw [if_neg (fun h => h htr)]
    rfl
  · intro hdisk hpos hlt
    unfold storeGet readBackup
    simp only [hcache, hpath, hdisk]
    have h1 : alookup [("payload", job), ("expires_at", Jv.num e)]
        "expires_at" = some (Jv.num e) := by
      simp [alookup]
    rw [h1]
    dsimp only [Option.getD]
    have htre : (Jv.num e).pyTruthy = true := by
      simp [Jv.pyTruthy]
      omega
    rw [if_pos htre, if_pos hlt]
  · intro hdisk
    unfold storeGet readBackup
    simp only [hcache, hpath, hdisk]
  · intro hdisk hobj hpos hnow
    unfold storeGet readBackup
    simp only [hcache, hpath, hdisk]
    have h1 : alookup [("payload", job), ("expires_at", Jv.num e)]
        "expires_at" = some (Jv.num e) := by
      simp [alookup]
    have h2 : alookup [("payload", job), ("expires_at", Jv.num e)]
        "payload" = some job := by
      simp [alookup]
    rw [h1, h2]
    dsimp only [Option.getD]
    have htre : (Jv.num e).pyTruthy = true := by
      simp [Jv.pyTruthy]
      omega
    have hno : ¬ job.isObj = true := by
      rw [hobj]
      exact Bool.false_ne_true
    rw [if_pos htre, if_neg hnow, if_pos hno]
  · intro d hdisk hd
    unfold storeGet readBackup
    simp only [hcache, hpath, hdisk]
    cases d with
    | obj kvs => simp [Jv.isObj] at hd
    | null => rfl
    | bool b => rfl
    | num n => rfl
    | str sv => rfl
    | arr xs => rfl
  · intro kvs x hdisk hexp htr hnum hbool
    unfold storeGet readBackup
    simp only [hcache, hpath, hdisk]
    rw [hexp]
    dsimp only [Option.getD]
    rw [if_pos htr]
    cases x with
    | num n => exact absurd rfl (hnum n)
    | bool b => exact absurd rfl (hbool b)
    | null => rfl
    | str sv => rfl
    | arr xs => rfl
    | obj kvs2 => rfl

/-- Witness for C5 at a concrete store: a missing cache entry and a fresh
disk backup; `get` returns the payload and rehydrates it with expiry
`now + ttl`. -/
theorem jobstore_get_disk_fallback_witness :
    storeGet (StoreCfg.mk "ff:task" 10 20 true)
      (StoreState.mk []
        [("t.json", some (Jv.obj [("payload", Jv.obj [("task_id", Jv.str "t")]),
          ("expires_at", Jv.num 50)]))])
      "t" 7 =
    .ret (some (Jv.obj [("task_id", Jv.str "t")]))
      (rehydrate (StoreCfg.mk "ff:task" 10 20 true)
        (StoreState.mk []
          [("t.json", some (Jv.obj [("payload", Jv.obj [("task_id", Jv.str "t")]),
            ("expires_at", Jv.num 50)]))])
        "t" (Jv.obj [("task_id", Jv.str "t")]) 7) :=
  (jobstore_get_disk_fallback (StoreCfg.mk "ff:task" 10 20 true)
    (StoreState.mk []
      [("t.json", some (Jv.obj [("payload", Jv.obj [("task_id", Jv.str "t")]),
        ("expires_at", Jv.num 50)]))])
    "t" "t.json" 7 50 (Jv.obj [("task_id", Jv.str "t")]) rfl rfl).1
    rfl rfl rfl (by decide) (by decide)

/-! ## Claim C6: merge semantics of `JobStore.update_fields` -/

theorem alookup_eq_none_iff {α : Type} (kvs : List (String × α)) (k : String) :
    alookup kvs k = none ↔ k ∉ kvs.map Prod.fst := by
  induction kvs with
  | nil => simp [alookup]
  | cons kv rest ih =>
    obtain ⟨k', v'⟩ := kv
    by_cases h : k' = k
    · subst h
      simp [alookup]
    · simp [alookup, h, ih, Ne.symm h]

theorem aset_ne_nil {α : Type} (kvs : List (String × α)) (k : String) (v : α) :
    aset kvs k v ≠ [] := by
  cases kvs with
  | nil => simp [aset]
  | cons kv rest =>
    obtain ⟨k', v'⟩ := kv
    by_cases h : k' = k <;> simp [aset, h]

theorem hasKey_jset_ne (j : Jv) (k k2 : String) (v : Jv) (h : k ≠ k2) :
    (j.jset k v).hasKey k2 = j.hasKey k2 := by
  cases j <;> simp [Jv.jset, Jv.hasKey, alookup_aset_ne _ _ _ _ h]

theorem alookup_aupdate_not_mem {α : Type} (ex d : List (String × α))
    (k : String) (h : k ∉ d.map Prod.fst) :
    alookup (aupdate ex d) k = alookup ex k := by
  induction d generalizing ex with
  | nil => rfl
  | cons kv d' ih =>
    obtain ⟨k1, v1⟩ := kv
    simp only [List.map_cons, List.mem_cons, not_or] at h
    show alookup (aupdate (aset ex k1 v1) d') k = alookup ex k
    rw [ih (aset ex k1 v1) h.2, alookup_aset_ne _ _ _ _ (Ne.symm h.1)]

theorem alookup_aupdate_some {α : Type} (ex d : List (String × α))
    (k : String) (v : α) (hnd : (d.map Prod.fst).Nodup)
    (h : alookup d k = some v) :
    alookup (aupdate ex d) k = some v := by
  induction d generalizing ex with
  | nil => simp [alookup] at h
  | cons kv d' ih =>
    obtain ⟨k1, v1⟩ := kv
    simp only [List.map_cons, List.nodup_cons] at hnd
    by_cases hk : k1 = k
    · subst hk
      simp only [alookup, if_pos rfl] at h
      obtain rfl : v1 = v := Option.some.inj h
      show alookup (aupdate (aset ex k1 v1) d') k1 = some v1
      rw [alookup_aupdate_not_mem _ _ _ hnd.1, alookup_aset_self]
    · simp only [alookup, if_neg hk] at h
      show alookup (aupdate (aset ex k1 v1) d') k = some v
      exact ih (aset ex k1 v1) hnd.2 h

theorem alookup_aupdate_getD {α : Type} (ex d : List (String × α))
    (k : String) (w : α) (hnd : (d.map Prod.fst).Nodup) :
    (alookup (aupdate ex d) k).getD w =
      (alookup d k).getD ((alookup ex k).getD w) := by
  cases h : alookup d k with
  | none =>
    rw [alookup_aupdate_not_mem ex d k ((alookup_eq_none_iff d k).mp h)]
    rfl
  | some v =>
    rw [alookup_aupdate_some ex d k v hnd h]
    rfl

theorem applyUpdate_spec (job : Jv) (k : String) (v : Jv)
    (hobj : job.isObj = true)
    (hdet : k = "details" → v.isObj = true →
      ((job.jGet "details").isObj = true ∨ job.hasKey "details" = false))
    (hprog : k = "progress" → v.isArr = true →
      ((job.jGet "progress").isArr = true ∨ job.hasKey "progress" = false))
    (hdnd : ∀ d, k = "details" → v = .obj d → (d.map Prod.fst).Nodup) :
    ∃ j1, applyUpdate job (k, v) = some j1 ∧ j1.isObj = true ∧
      (∀ k2, k2 ≠ k → j1.jGet k2 = job.jGet k2 ∧ j1.hasKey k2 = job.hasKey k2) ∧
      (k ≠ "details" → k ≠ "progress" → j1.jGet k = v) ∧
      (∀ d, k = "details" → v = .obj d →
        ∀ k2, (j1.jGet "details").jGet k2 =
          (alookup d k2).getD ((job.jGet "details").jGet k2)) ∧
      (∀ items, k = "progress" → v = .arr items →
        j1.jGet "progress" = .arr (progListOf job ++ items)) ∧
      ((k = "details" ∧ v.isObj = true) → (j1.jGet "details").isObj = true) ∧
      ((k = "progress" ∧ v.isArr = true) → (j1.jGet "progress").isArr = true) := by
  by_cases hd : k = "details" ∧ v.isObj = true
  · obtain ⟨rfl, hvo⟩ := hd
    obtain ⟨dkvs, rfl⟩ : ∃ dkvs, v = Jv.obj dkvs := by
      cases v <;> simp_all [Jv.isObj]
    have hnd := hdnd dkvs rfl rfl
    rcases hdet rfl rfl with hcase | hcase
    · obtain ⟨existing, hex⟩ : ∃ ex, job.jGet "details" = Jv.obj ex := by
        cases hx : job.jGet "details" <;> rw [hx] at hcase <;>
          simp_all [Jv.isObj]
      have happly : applyUpdate job ("details", Jv.obj dkvs) =
          some (job.jset "details" (.obj (aupdate existing dkvs))) := by
        unfold applyUpdate
        rw [if_pos ⟨rfl, rfl⟩, hex]
        rfl
      refine ⟨_, happly, isObj_jset job hobj _ _, ?_, ?_, ?_, ?_, ?_, ?_⟩
      · intro k2 h2
        exact ⟨jGet_jset_ne job _ k2 _ (Ne.symm h2),
          hasKey_jset_ne job _ k2 _ (Ne.symm h2)⟩
      · intro h _
        exact absurd rfl h
      · intro d _ hv k2
        obtain rfl : dkvs = d := by injection hv
        rw [jGet_jset_self job hobj, hex]
        cases hl : alookup dkvs k2 with
        | none =>
          simp only [Jv.jGet]
          rw [alookup_aupdate_not_mem existing dkvs k2
            ((alookup_eq_none_iff dkvs k2).mp hl)]
          rfl
        | some w =>
          simp only [Jv.jGet]
          rw [alookup_aupdate_some existing dkvs k2 w hnd hl]
          rfl
      · intro items h
        exact absurd h (by decide)
      · intro _
        rw [jGet_jset_self job hobj]
        rfl
      · rintro ⟨h, _⟩
        exact absurd h (by decide)
    · have hnull : job.jGet "details" = .null := by
        cases job with
        | obj kvs =>
          cases hl : alookup kvs "details" with
          | none => simp [Jv.jGet, hl]
          | some w =>
            exfalso
            rw [show Jv.hasKey (Jv.obj kvs) "details" =
              (alookup kvs "details").isSome from rfl, hl] at hcase
            simp at hcase
        | null => rfl
        | bool b => rfl
        | num n => rfl
        | str sv => rfl
        | arr xs => rfl
      have happly : applyUpdate job ("details", Jv.obj dkvs) =
          some (job.jset "details" (.obj (aupdate [] dkvs))) := by
        unfold applyUpdate
        rw [if_pos ⟨rfl, rfl⟩, hnull]
        simp only [hcase, Bool.false_eq_true, if_false]
        rfl
      refine ⟨_, happly, isObj_jset job hobj _ _, ?_, ?_, ?_, ?_, ?_, ?_⟩
      · intro k2 h2
        exact ⟨jGet_jset_ne job _ k2 _ (Ne.symm h2),
          hasKey_jset_ne job _ k2 _ (Ne.symm h2)⟩
      · intro h _
        exact absurd rfl h
      · intro d _ hv k2
        obtain rfl : dkvs = d := by injection hv
        rw [jGet_jset_self job hobj, hnull]
        cases hl : alookup dkvs k2 with
        | none =>
          simp only [Jv.jGet]
          rw [alookup_aupdate_not_mem [] dkvs k2
            ((alookup_eq_none_iff dkvs k2).mp hl)]
          simp [alookup]
        | some w =>
          simp only [Jv.jGet]
          rw [alookup_aupdate_some [] dkvs k2 w hnd hl]
      · intro items h
        exact absurd h (by decide)
      · intro _
        rw [jGet_jset_self job hobj]
        rfl
      · rintro ⟨h, _⟩
        exact absurd h (by decide)
  · by_cases hp : k = "progress" ∧ v.isArr = true
    · obtain ⟨rfl, hva⟩ := hp
      obtain ⟨items, rfl⟩ : ∃ xs, v = Jv.arr xs := by
        cases v <;> simp_all [Jv.isArr]
      rcases hprog rfl rfl with hcase | hcase
      · obtain ⟨existing, hex⟩ : ∃ ex, job.jGet "progress" = Jv.arr ex := by
          cases hx : job.jGet "progress" <;> rw [hx] at hcase <;>
            simp_all [Jv.isArr]
        have happly : applyUpdate job ("progress", Jv.arr items) =
            some (job.jset "progress" (.arr (existing ++ items))) := by
          unfold applyUpdate
          rw [if_neg hd, if_pos ⟨rfl, rfl⟩, hex]
          rfl
        refine ⟨_, happly, isObj_jset job hobj _ _, ?_, ?_, ?_, ?_, ?_, ?_⟩
        · intro k2 h2
          exact ⟨jGet_jset_ne job _ k2 _ (Ne.symm h2),
            hasKey_jset_ne job _ k2 _ (Ne.symm h2)⟩
        · intro _ h
          exact absurd rfl h
        · intro d h
          exact absurd h (by decide)
        · intro items' _ hv
          obtain rfl : items = items' := by injection hv
          rw [jGet_jset_self job hobj]
          simp only [progListOf, hex]
        · rintro ⟨h, _⟩
          exact absurd h (by decide)
        · intro _
          rw [jGet_jset_self job hobj]
          rfl
      · have hnull : job.jGet "progress" = .null := by
          cases job with
          | obj kvs =>
            cases hl : alookup kvs "progress" with
            | none => simp [Jv.jGet, hl]
            | some w =>
              exfalso
              rw [show Jv.hasKey (Jv.obj kvs) "progress" =
                (alookup kvs "progress").isSome from rfl, hl] at hcase
              simp at hcase
          | null => rfl
          | bool b => rfl
          | num n => rfl
          | str sv => rfl
          | arr xs => rfl
        have happly : applyUpdate job ("progress", Jv.arr items) =
            some (job.jset "progress" (.arr items)) := by
          unfold applyUpdate
          rw [if_neg hd, if_pos ⟨rfl, rfl⟩, hnull]
          simp only [hcase, Bool.false_eq_true, if_false]
          rfl
        refine ⟨_, happly, isObj_jset job hobj _ _, ?_, ?_, ?_, ?_, ?_, ?_⟩
        · intro k2 h2
          exact ⟨jGet_jset_ne job _ k2 _ (Ne.symm h2),
            hasKey_jset_ne job _ k2 _ (Ne.symm h2)⟩
        · intro _ h
          exact absurd rfl h
        · intro d h
          exact absurd h (by decide)
        · intro items' _ hv
          obtain rfl : items = items' := by injection hv
          rw [jGet_jset_self job hobj]
          simp only [progListOf, hnull, List.nil_append]
        · rintro ⟨h, _⟩
          exact absurd h (by decide)
        · intro _
          rw [jGet_jset_self job hobj]
          rfl
    · have happly : applyUpdate job (k, v) = some (job.jset k v) := by
        unfold applyUpdate
        rw [if_neg hd, if_neg hp]
      refine ⟨_, happly, isObj_jset job hobj _ _, ?_, ?_, ?_, ?_, ?_, ?_⟩
      · intro k2 h2
        exact ⟨jGet_jset_ne job _ k2 _ (Ne.symm h2),
          hasKey_jset_ne job _ k2 _ (Ne.symm h2)⟩
      · intro _ _
        exact jGet_jset_self job hobj _ _
      · intro d hkd hv
        refine absurd ⟨hkd, ?_⟩ hd
        rw [hv]
        rfl
      · intro items hkp hv
        refine absurd ⟨hkp, ?_⟩ hp
        rw [hv]
        rfl
      · intro h
        exact absurd h hd
      · intro h
        exact absurd h hp

theorem applyUpdates_spec (updates : List (String × Jv)) (job : Jv)
    (hobj : job.isObj = true)
    (hwt : wellTypedFor job updates)
    (hnd : (updates.map Prod.fst).Nodup) :
    ∃ rec, applyUpdates job updates = some rec ∧ rec.isObj = true ∧
      (∀ k, alookup updates k = none → rec.jGet k = job.jGet k) ∧
      (∀ k v, alookup updates k = some v → k ≠ "details" → k ≠ "progress" →
        rec.jGet k = v) ∧
      (∀ d, alookup updates "details" = some (.obj d) →
        ∀ k2, (rec.jGet "details").jGet k2 =
          (alookup d k2).getD ((job.jGet "details").jGet k2)) ∧
      (∀ items, alookup updates "progress" = some (.arr items) →
        rec.jGet "progress" = .arr (progListOf job ++ items)) := by
  induction updates generalizing job with
  | nil =>
    refine ⟨job, rfl, hobj, fun k _ => rfl, ?_, ?_, ?_⟩
    · intro k v h
      simp [alookup] at h
    · intro d h
      simp [alookup] at h
    · intro items h
      simp [alookup] at h
  | cons kv rest ih =>
    obtain ⟨k, v⟩ := kv
    have hk_notin : k ∉ rest.map Prod.fst := by
      simp only [List.map_cons, List.nodup_cons] at hnd
      exact hnd.1
    have hnd' : (rest.map Prod.fst).Nodup := by
      simp only [List.map_cons, List.nodup_cons] at hnd
      exact hnd.2
    have hlook : ∀ k3, alookup ((k, v) :: rest) k3 =
        if k = k3 then some v else alookup rest k3 := fun k3 => rfl
    obtain ⟨j1, happly, hj1obj, huntouched, hrepl, hdet1, hprog1, hdetObj,
        hprogArr⟩ :=
      applyUpdate_spec job k v hobj
        (fun hkd hvo => hwt.1 v (by rw [hlook, if_pos hkd]) hvo)
        (fun hkp hva => hwt.2.1 v (by rw [hlook, if_pos hkp]) hva)
        (fun d hkd hv => hwt.2.2 d (by rw [hlook, if_pos hkd, hv]))
    have hwt' : wellTypedFor j1 rest := by
      refine ⟨?_, ?_, ?_⟩
      · intro v' hl hv'
        by_cases hkd : k = "details"
        · exfalso
          have hn : alookup rest "details" = none :=
            (alookup_eq_none_iff rest "details").mpr (hkd ▸ hk_notin)
          rw [hn] at hl
          exact Option.noConfusion hl
        · have hne : ("details" : String) ≠ k := fun h => hkd h.symm
          obtain ⟨hg, hh⟩ := huntouched "details" hne
          rw [hg, hh]
          exact hwt.1 v' (by rw [hlook, if_neg hkd]; exact hl) hv'
      · intro v' hl hv'
        by_cases hkp : k = "progress"
        · exfalso
          have hn : alookup rest "progress" = none :=
            (alookup_eq_none_iff rest "progress").mpr (hkp ▸ hk_notin)
          rw [hn] at hl
          exact Option.noConfusion hl
        · have hne : ("progress" : String) ≠ k := fun h => hkp h.symm
          obtain ⟨hg, hh⟩ := huntouched "progress" hne
          rw [hg, hh]
          exact hwt.2.1 v' (by rw [hlook, if_neg hkp]; exact hl) hv'
      · intro d hl
        by_cases hkd : k = "details"
        · exfalso
          have hn : alookup rest "details" = none :=
            (alookup_eq_none_iff rest "details").mpr (hkd ▸ hk_notin)
          rw [hn] at hl
          exact Option.noConfusion hl
        · exact hwt.2.2 d (by rw [hlook, if_neg hkd]; exact hl)
    obtain ⟨rec, happly2, hrecobj, ih1, ih2, ih3, ih4⟩ := ih j1 hj1obj hwt' hnd'
    have hsteps : applyUpdates job ((k, v) :: rest) = some rec := by
      simp only [applyUpdates, happly, happly2]
    refine ⟨rec, hsteps, hrecobj, ?_, ?_, ?_, ?_⟩
    · intro k3 hl
      rw [hlook] at hl
      by_cases hkk : k = k3
      · rw [if_pos hkk] at hl
        exact Option.noConfusion hl
      · rw [if_neg hkk] at hl
        rw [ih1 k3 hl]
        exact (huntouched k3 (fun h => hkk h.symm)).1
    · intro k3 v3 hl hd3 hp3
      rw [hlook] at hl
      by_cases hkk : k = k3
      · rw [if_pos hkk] at hl
        obtain rfl : v = v3 := Option.some.inj hl
        subst hkk
        have hrestnone : alookup rest k = none :=
          (alookup_eq_none_iff rest k).mpr hk_notin
        rw [ih1 k hrestnone]
        exact hrepl hd3 hp3
      · rw [if_neg hkk] at hl
        exact ih2 k3 v3 hl hd3 hp3
    · intro d hl k2
      rw [hlook] at hl
      by_cases hkd : k = "details"
      · rw [if_pos hkd] at hl
        obtain rfl : v = Jv.obj d := Option.some.inj hl
        have hrestnone : alookup rest "details" = none := by
          rw [alookup_eq_none_iff rest "details"]
          rw [← hkd]
          exact hk_notin
        rw [ih1 "details" hrestnone]
        exact hdet1 d hkd rfl k2
      · rw [if_neg hkd] at hl
        rw [ih3 d hl k2, (huntouched "details" (fun h => hkd h.symm)).1]
    · intro items hl
      rw [hlook] at hl
      by_cases hkp : k = "progress"
      · rw [if_pos hkp] at hl
        obtain rfl : v = Jv.arr items := Option.some.inj hl
        have hrestnone : alookup rest "progress" = none := by
          rw [alookup_eq_none_iff rest "progress"]
          rw [← hkp]
          exact hk_notin
        rw [ih1 "progress" hrestnone]
        exact hprog1 items hkp rfl
      · rw [if_neg hkp] at hl
        rw [ih4 items hl]
        have hpl : progListOf j1 = progListOf job := by
          unfold progListOf
          rw [(huntouched "progress" (fun h => hkp h.symm)).1]
        rw [hpl]

theorem storeWrite_cache (cfg : StoreCfg) (st : StoreState) (job : Jv)
    (now : Int) :
    alookup ((storeWrite cfg st job now).2).cache
        (storeKey cfg (taskIdOf job)) =
      some (CacheEntry.mk (some job) (now + cfg.ttl)) := by
  unfold storeWrite writeBackup
  cases hb : backupPath cfg (taskIdOf job) with
  | none => simp only [hb, alookup_aset_self]
  | some path => simp only [hb, alookup_aset_self]

/-- C6: `update_fields` is a read-modify-write: it returns `None` with no
write when the task cannot be read; otherwise it merges with the claimed
semantics — a dict-valued `details` update shallow-merges into the
existing `details`, a list-valued `progress` update appends to the
existing list, any other key replaces the field — always stamps
`updated_at` with the current time, writes the merged record back
(fresh cache entry under the record's key), and returns it. -/
theorem update_fields_spec (cfg : StoreCfg) (st st1 : StoreState)
    (tid : String) (updates : List (String × Jv)) (now : Int) :
    (storeGet cfg st tid now = .ret none st1 →
      updateFields cfg st tid updates now = .notFound st1) ∧
    (∀ job, storeGet cfg st tid now = .ret (some job) st1 →
      job.isObj = true → job.pyTruthy = true →
      wellTypedFor job updates →
      (updates.map Prod.fst).Nodup →
      ∃ rec st2, updateFields cfg st tid updates now = .updated rec st2 ∧
        alookup st2.cache (storeKey cfg (taskIdOf rec)) =
          some (CacheEntry.mk (some rec) (now + cfg.ttl)) ∧
        rec.isObj = true ∧
        rec.jGet "updated_at" = .str (isoOf now) ∧
        (∀ k, alookup updates k = none → k ≠ "updated_at" →
          rec.jGet k = job.jGet k) ∧
        (∀ k v, alookup updates k = some v → k ≠ "details" →
          k ≠ "progress" → k ≠ "updated_at" → rec.jGet k = v) ∧
        (∀ d, alookup updates "details" = some (.obj d) →
          ∀ k2, (rec.jGet "details").jGet k2 =
            (alookup d k2).getD ((job.jGet "details").jGet k2)) ∧
        (∀ items, alookup updates "progress" = some (.arr items) →
          rec.jGet "progress" = .arr (progListOf job ++ items))) := by
  constructor
  · intro h
    unfold updateFields
    rw [h]
  · intro job hget hobj htr hwt hnd
    obtain ⟨merged, happ, hmobj, h1, h2, h3, h4⟩ :=
      applyUpdates_spec updates job hobj hwt hnd
    refine ⟨merged.jset "updated_at" (.str (isoOf now)),
      (storeWrite cfg st1 (merged.jset "updated_at" (.str (isoOf now))) now).2,
      ?_, ?_, ?_, ?_, ?_, ?_, ?_, ?_⟩
    · unfold updateFields
      simp only [hget]
      rw [if_neg (fun h => h htr), if_neg (fun h => h hobj), happ]
      simp only [storeWrite]
    · exact storeWrite_cache cfg st1 _ now
    · exact isObj_jset merged hmobj _ _
    · exact jGet_jset_self merged hmobj _ _
    · intro k hl hku
      rw [jGet_jset_ne merged _ k _ (fun h => hku h.symm)]
      exact h1 k hl
    · intro k v hl hkd hkp hku
      rw [jGet_jset_ne merged _ k _ (fun h => hku h.symm)]
      exact h2 k v hl hkd hkp
    · intro d hl k2
      rw [jGet_jset_ne merged _ "details" _ (by decide)]
      exact h3 d hl k2
    · intro items hl
      rw [jGet_jset_ne merged _ "progress" _ (by decide)]
      exact h4 items hl

/-- Witness for C6 at a concrete store and updates mapping. -/
theorem update_fields_spec_witness :
    ∃ rec st2,
      updateFields (StoreCfg.mk "ff:task" 10 20 false)
        (StoreState.mk [("ff:task:t",
          CacheEntry.mk (some (Jv.obj [("task_id", Jv.str "t"),
            ("status", Jv.str "pending")])) 30)] [])
        "t" [("status", Jv.str "running"), ("result", Jv.null)] 5 =
        .updated rec st2 ∧
      rec.jGet "status" = Jv.str "running" ∧
      rec.jGet "updated_at" = Jv.str (isoOf 5) := by
  obtain ⟨rec, st2, heq, _, _, hupd, _, hrepl, _, _⟩ :=
    (update_fields_spec (StoreCfg.mk "ff:task" 10 20 false)
      (StoreState.mk [("ff:task:t",
        CacheEntry.mk (some (Jv.obj [("task_id", Jv.str "t"),
          ("status", Jv.str "pending")])) 30)] [])
      (StoreState.mk [("ff:task:t",
        CacheEntry.mk (some (Jv.obj [("task_id", Jv.str "t"),
          ("status", Jv.str "pending")])) 30)] [])
      "t" [("status", Jv.str "running"), ("result", Jv.null)] 5).2
      (Jv.obj [("task_id", Jv.str "t"), ("status", Jv.str "pending")])
      rfl rfl rfl
      ⟨fun v hl _ => Option.noConfusion hl,
       fun v hl _ => Option.noConfusion hl,
       fun d hl => Option.noConfusion hl⟩
      (by decide)
  exact ⟨rec, st2, heq, hrepl "status" (Jv.str "running") rfl (by decide)
    (by decide) (by decide), hupd⟩

/-! ## Engine-trace machinery -/

theorem evUpdateFields_events (scfg : StoreCfg) (tid : String)
    (updates : List (String × Jv)) (s : ES) :
    ((evUpdateFields scfg tid updates) s).2.events =
      s.events ++ [Ev.update updates] := by
  cases h : updateFields scfg s.store tid updates s.clock <;>
    simp [evUpdateFields, h]

theorem evAppendProgress_events (scfg : StoreCfg) (tid : String)
    (message : String) (stage : Option String) (extra : Option Jv) (s : ES) :
    ((evAppendProgress scfg tid message stage extra) s).2.events =
      s.events ++
        [Ev.update [("progress",
          .arr [progressEntry s.clock message stage extra])]] := by
  unfold evAppendProgress
  exact evUpdateFields_events scfg tid _ s

theorem keepsEv_pure {α : Type} (a : α) (P : Ev → Prop) :
    (pure a : EngM α).keepsEv P := by
  intro s hs e he
  exact hs e he

theorem keepsEv_throwErr {α : Type} (ex : Jv) (P : Ev → Prop) :
    (throwErr ex : EngM α).keepsEv P := by
  intro s hs e he
  exact hs e he

theorem keepsEv_bind {α β : Type} (x : EngM α) (f : α → EngM β)
    (P : Ev → Prop) (hx : x.keepsEv P) (hf : ∀ a, (f a).keepsEv P) :
    (x >>= f).keepsEv P := by
  intro s hs
  rcases hxs : x s with ⟨r, s1⟩
  have hs1 : ∀ e ∈ s1.events, P e := by
    have h := hx s hs
    rw [hxs] at h
    exact h
  cases r with
  | ok a =>
    have hxf : (x >>= f) s = f a s1 := by
      show (match x s with
        | (.ok a, s1) => f a s1
        | (.error er, s1) => (.error er, s1)) = f a s1
      rw [hxs]
    rw [hxf]
    exact hf a s1 hs1
  | error er =>
    have hxf : (x >>= f) s = (.error er, s1) := by
      show (match x s with
        | (.ok a, s1) => f a s1
        | (.error er, s1) => (.error er, s1)) = (.error er, s1)
      rw [hxs]
    rw [hxf]
    exact hs1

theorem keepsEv_bind_post {α β : Type} (x : EngM α) (f : α → EngM β)
    (P : Ev → Prop) (Q : α → Prop) (hx : x.keepsEv P) (hq : x.okImplies Q)
    (hf : ∀ a, Q a → (f a).keepsEv P) : (x >>= f).keepsEv P := by
  intro s hs
  rcases hxs : x s with ⟨r, s1⟩
  have hs1 : ∀ e ∈ s1.events, P e := by
    have h := hx s hs
    rw [hxs] at h
    exact h
  cases r with
  | ok a =>
    have hxf : (x >>= f) s = f a s1 := by
      show (match x s with
        | (.ok a, s1) => f a s1
        | (.error er, s1) => (.error er, s1)) = f a s1
      rw [hxs]
    rw [hxf]
    exact hf a (hq s a s1 hxs) s1 hs1
  | error er =>
    have hxf : (x >>= f) s = (.error er, s1) := by
      show (match x s with
        | (.ok a, s1) => f a s1
        | (.error er, s1) => (.error er, s1)) = (.error er, s1)
      rw [hxs]
    rw [hxf]
    exact hs1

theorem keepsEv_ite {α : Type} (c : Prop) [Decidable c] (m1 m2 : EngM α)
    (P : Ev → Prop) (h1 : c → m1.keepsEv P) (h2 : ¬ c → m2.keepsEv P) :
    (if c then m1 else m2).keepsEv P := by
  by_cases hc : c
  · rw [if_pos hc]
    exact h1 hc
  · rw [if_neg hc]
    exact h2 hc

theorem keepsEv_evUpdateFields (scfg : StoreCfg) (tid : String)
    (updates : List (String × Jv)) (P : Ev → Prop)
    (h : P (Ev.update updates)) :
    (evUpdateFields scfg tid updates).keepsEv P := by
  intro s hs e he
  rw [evUpdateFields_events] at he
  rcases List.mem_append.mp he with hin | hin
  · exact hs e hin
  · rw [List.mem_singleton.mp hin]
    exact h

theorem keepsEv_evAppendProgress (scfg : StoreCfg) (tid : String)
    (message : String) (stage : Option String) (extra : Option Jv)
    (P : Ev → Prop)
    (h : ∀ now, P (Ev.update [("progress",
      .arr [progressEntry now message stage extra])])) :
    (evAppendProgress scfg tid message stage extra).keepsEv P := by
  intro s hs e he
  rw [evAppendProgress_events] at he
  rcases List.mem_append.mp he with hin | hin
  · exact hs e hin
  · rw [List.mem_singleton.mp hin]
    exact h s.clock

theorem keepsEv_callSubmit (f : Jv → Except Jv String) (mkEv : Jv → Ev)
    (payload : Jv) (P : Ev → Prop) (h : P (mkEv payload)) :
    (callSubmit f mkEv payload).keepsEv P := by
  intro s hs e he
  unfold callSubmit at he
  cases hf : f payload with
  | ok jid =>
    rw [hf] at he
    rcases List.mem_append.mp he with hin | hin
    · exact hs e hin
    · rw [List.mem_singleton.mp hin]
      exact h
  | error er =>
    rw [hf] at he
    exact hs e he

theorem keepsEv_callWait (f : String → Except Jv Jv) (jid : String)
    (P : Ev → Prop) : (callWait f jid).keepsEv P := by
  intro s hs e he
  exact hs e he

theorem attachIntermediate_state (fr im : Jv) (s : ES) :
    ((attachIntermediate fr im) s).2 = s := by
  unfold attachIntermediate
  by_cases h1 : (¬ im.pyTruthy = true)
  · rw [if_pos h1]
    rfl
  · rw [if_neg h1]
    cases hfi : fr.jGet "intermediate" with
    | null =>
      simp only [hfi]
      by_cases h2 : fr.hasKey "intermediate" = true
      · simp only [h2, if_true]
        rfl
      · simp only [h2, Bool.false_eq_true, if_false]
        rfl
    | bool b =>
      simp only [hfi]
      rfl
    | num n =>
      simp only [hfi]
      rfl
    | str sv =>
      simp only [hfi]
      rfl
    | arr xs =>
      simp only [hfi]
      rfl
    | obj kvs =>
      simp only [hfi]
      rfl

theorem keepsEv_attachIntermediate (fr im : Jv) (P : Ev → Prop) :
    (attachIntermediate fr im).keepsEv P := by
  intro s hs e he
  rw [attachIntermediate_state] at he
  exact hs e he

theorem attachIntermediate_isObj (fr im : Jv) (hfr : fr.isObj = true) :
    (attachIntermediate fr im).okImplies (fun r => r.isObj = true) := by
  intro s r s1 h
  unfold attachIntermediate at h
  by_cases him : (¬ im.pyTruthy = true)
  · rw [if_pos him] at h
    obtain rfl : fr = r := by
      have := congrArg Prod.fst h
      exact Except.ok.inj this
    exact hfr
  · rw [if_neg him] at h
    rcases hfi : fr.jGet "intermediate" with _ | b | n | sv | xs | kvs
    all_goals rw [hfi] at h
    · by_cases hk : fr.hasKey "intermediate" = true
      · rw [if_pos hk] at h
        exact absurd (congrArg Prod.fst h) (by simp [throwErr])
      · rw [if_neg hk] at h
        obtain rfl : fr.jset "intermediate" (.obj (aupdate [] (objKvs im))) = r := by
          have := congrArg Prod.fst h
          exact Except.ok.inj this
        exact isObj_jset fr hfr _ _
    · exact absurd (congrArg Prod.fst h) (by simp [throwErr])
    · exact absurd (congrArg Prod.fst h) (by simp [throwErr])
    · exact absurd (congrArg Prod.fst h) (by simp [throwErr])
    · exact absurd (congrArg Prod.fst h) (by simp [throwErr])
    · obtain rfl : fr.jset "intermediate" (.obj (aupdate kvs (objKvs im))) = r := by
        have := congrArg Prod.fst h
        exact Except.ok.inj this
      exact isObj_jset fr hfr _ _

theorem sound_pure {α : Type} (a : α) (P : Ev → Prop) (Q : α → Prop)
    (h : Q a) : (pure a : EngM α).sound P Q :=
  ⟨keepsEv_pure a P, fun s r s1 hr => by
    obtain rfl : a = r := Except.ok.inj (congrArg Prod.fst hr)
    exact h⟩

theorem sound_throwErr {α : Type} (ex : Jv) (P : Ev → Prop) (Q : α → Prop) :
    (throwErr ex : EngM α).sound P Q :=
  ⟨keepsEv_throwErr ex P, fun s r s1 hr =>
    Except.noConfusion (congrArg Prod.fst hr)⟩

theorem sound_bind {α β : Type} (x : EngM α) (f : α → EngM β)
    (P : Ev → Prop) (Q1 : α → Prop) (Q2 : β → Prop)
    (hx : x.sound P Q1) (hf : ∀ a, Q1 a → (f a).sound P Q2) :
    (x >>= f).sound P Q2 := by
  constructor
  · exact keepsEv_bind_post x f P Q1 hx.1 hx.2 (fun a ha => (hf a ha).1)
  · intro s r s1 hr
    have hxf : (x >>= f) s = match x s with
        | (.ok a, s2) => f a s2
        | (.error er, s2) => (.error er, s2) := rfl
    rcases hxs : x s with ⟨xr, s2⟩
    rw [hxf, hxs] at hr
    cases xr with
    | ok a => exact (hf a (hx.2 s a s2 hxs)).2 s2 r s1 hr
    | error er => exact Except.noConfusion (congrArg Prod.fst hr)

theorem sound_ite {α : Type} (c : Prop) [Decidable c] (m1 m2 : EngM α)
    (P : Ev → Prop) (Q : α → Prop) (h1 : c → m1.sound P Q)
    (h2 : ¬ c → m2.sound P Q) : (if c then m1 else m2).sound P Q := by
  by_cases hc : c
  · rw [if_pos hc]
    exact h1 hc
  · rw [if_neg hc]
    exact h2 hc

theorem sound_evUpdateFields (scfg : StoreCfg) (tid : String)
    (updates : List (String × Jv)) (P : Ev → Prop)
    (h : P (Ev.update updates)) :
    (evUpdateFields scfg tid updates).sound P (fun _ => True) := by
  refine ⟨keepsEv_evUpdateFields scfg tid updates P h, fun _ _ _ _ => trivial⟩

theorem sound_evAppendProgress (scfg : StoreCfg) (tid : String)
    (message : String) (stage : Option String) (extra : Option Jv)
    (P : Ev → Prop)
    (h : ∀ now, P (Ev.update [("progress",
      .arr [progressEntry now message stage extra])])) :
    (evAppendProgress scfg tid message stage extra).sound P
      (fun _ => True) := by
  refine ⟨keepsEv_evAppendProgress scfg tid message stage extra P h,
    fun _ _ _ _ => trivial⟩

theorem sound_callSubmit (f : Jv → Except Jv String) (mkEv : Jv → Ev)
    (payload : Jv) (P : Ev → Prop) (h : P (mkEv payload)) :
    (callSubmit f mkEv payload).sound P (fun _ => True) := by
  refine ⟨keepsEv_callSubmit f mkEv payload P h, fun _ _ _ _ => trivial⟩

theorem sound_callWait (f : String → Except Jv Jv) (jid : String)
    (P : Ev → Prop) : (callWait f jid).sound P (fun _ => True) := by
  refine ⟨keepsEv_callWait f jid P, fun _ _ _ _ => trivial⟩

theorem sound_attachIntermediate (fr im : Jv) (P : Ev → Prop)
    (hfr : fr.isObj = true) :
    (attachIntermediate fr im).sound P (fun r => r.isObj = true) :=
  ⟨keepsEv_attachIntermediate fr im P, attachIntermediate_isObj fr im hfr⟩

theorem normaliseExc_isObj (e : Jv) : (normaliseExc e).isObj = true := by
  cases e with
  | obj kvs =>
    show (if (alookup kvs "error").isSome = true then Jv.obj kvs
      else Jv.obj (aset kvs "error" (Jv.str "runtime_error"))).isObj = true
    by_cases h : (alookup kvs "error").isSome = true
    · rw [if_pos h]
      rfl
    · rw [if_neg h]
      rfl
  | null => rfl
  | bool b => rfl
  | num n => rfl
  | str sv => rfl
  | arr xs => rfl

theorem pyTruthy_of_jGet (j : Jv) (k : String)
    (h : (j.jGet k).pyTruthy = true) : j.pyTruthy = true := by
  cases j with
  | obj kvs =>
    cases kvs with
    | nil => simp [Jv.jGet, alookup, Jv.pyTruthy] at h
    | cons kv rest => simp [Jv.pyTruthy]
  | null => simp [Jv.jGet, Jv.pyTruthy] at h
  | bool b => simp [Jv.jGet, Jv.pyTruthy] at h
  | num n => simp [Jv.jGet, Jv.pyTruthy] at h
  | str sv => simp [Jv.jGet, Jv.pyTruthy] at h
  | arr xs => simp [Jv.jGet, Jv.pyTruthy] at h

theorem aupdate_ne_nil_left {α : Type} (d : List (String × α))
    (ex : List (String × α)) (h : ex ≠ []) : aupdate ex d ≠ [] := by
  induction d generalizing ex with
  | nil => exact h
  | cons kv d' ih =>
    show aupdate (aset ex kv.1 kv.2) d' ≠ []
    exact ih (aset ex kv.1 kv.2) (aset_ne_nil ex kv.1 kv.2)

theorem aupdate_nil_ne_nil {α : Type} (d : List (String × α))
    (h : d ≠ []) : aupdate [] d ≠ [] := by
  cases d with
  | nil => exact absurd rfl h
  | cons kv d' =>
    show aupdate (aset [] kv.1 kv.2) d' ≠ []
    exact aupdate_ne_nil_left d' _ (aset_ne_nil [] kv.1 kv.2)

theorem runStage1_sound (scfg : StoreCfg) (ecfg : EngineCfg)
    (env : RemoteEnv) (tid : String) (r : PipelineRequest)
    (scriptText : String) (voiceKey : Option String)
    (r0 : PipelineRequest) :
    (runStage1 scfg ecfg env tid r scriptText voiceKey).sound
      (engineEvOk r0)
      (fun x => (x.1 = none → scriptText = "" ∧ x.2.1 = r) ∧
        (∀ sv, x.1 = some sv → sv.pyTruthy = true ∧ sv.isObj = true)) := by
  unfold runStage1
  refine sound_ite _ _ _ _ _ (fun hscript => ?_) (fun hscript => ?_)
  · refine sound_ite _ _ _ _ _ (fun _ => sound_throwErr _ _ _) (fun _ => ?_)
    refine sound_ite _ _ _ _ _ (fun _ => sound_throwErr _ _ _) (fun _ => ?_)
    refine sound_bind _ _ _ _ _
      (sound_evUpdateFields _ _ _ _ (Or.inl ⟨"sovits", rfl⟩)) (fun _ _ => ?_)
    refine sound_bind _ _ _ _ _
      (sound_evAppendProgress _ _ _ _ _ _
        (fun now => Or.inr (Or.inl ⟨_, rfl⟩))) (fun _ _ => ?_)
    dsimp only
    refine sound_bind _ _ _ _ _ (sound_callSubmit _ _ _ _ trivial)
      (fun jid _ => ?_)
    refine sound_bind _ _ _ _ _
      (sound_evUpdateFields _ _ _ _ (Or.inr (Or.inr (Or.inl ⟨_, rfl⟩))))
      (fun _ _ => ?_)
    refine sound_bind _ _ _ _ _
      (sound_evAppendProgress _ _ _ _ _ _
        (fun now => Or.inr (Or.inl ⟨_, rfl⟩))) (fun _ _ => ?_)
    refine sound_bind _ _ _ _ _ (sound_callWait _ _ _)
      (fun sovitsStatus _ => ?_)
    dsimp only
    refine sound_ite _ _ _ _ _ (fun _ => sound_throwErr _ _ _)
      (fun hobjg => ?_)
    dsimp only
    refine sound_ite _ _ _ _ _ (fun _ => sound_throwErr _ _ _)
      (fun hok => ?_)
    dsimp only
    refine sound_bind _ _ _ _ _
      (sound_evUpdateFields _ _ _ _
        (Or.inr (Or.inr (Or.inr (Or.inl ⟨_, _, rfl⟩))))) (fun _ _ => ?_)
    refine sound_bind _ _ _ _ _
      (sound_evAppendProgress _ _ _ _ _ _
        (fun now => Or.inr (Or.inl ⟨_, rfl⟩))) (fun _ _ => ?_)
    refine sound_pure _ _ _ ⟨?_, ?_⟩
    · intro hnone
      exact Option.noConfusion hnone
    · intro sv hsv
      obtain rfl := Option.some.inj hsv
      exact ⟨pyTruthy_of_jGet _ "output_key" (not_not.mp hok),
        not_not.mp hobjg⟩
  · refine sound_ite _ _ _ _ _ (fun _ => sound_throwErr _ _ _) (fun _ => ?_)
    refine sound_pure _ _ _ ⟨fun _ => ⟨not_not.mp hscript, rfl⟩, ?_⟩
    intro sv hsv
    exact Option.noConfusion hsv

theorem finishAudioOnly_sound (scfg : StoreCfg) (tid : String)
    (sovitsResult : Option Jv) (r r0 : PipelineRequest)
    (h1 : sovitsResult = none →
      pyStrip (r0.script_text.getD "") = "" ∧ r = r0)
    (h2 : ∀ sv, sovitsResult = some sv →
      sv.pyTruthy = true ∧ sv.isObj = true) :
    (finishAudioOnly scfg tid sovitsResult r).sound (engineEvOk r0)
      (fun _ => True) := by
  unfold finishAudioOnly
  dsimp only
  refine sound_bind _ _ _ _ _ (sound_evUpdateFields _ _ _ _ ?_)
    (fun _ _ => sound_evAppendProgress _ _ _ _ _ _
      (fun now => Or.inr (Or.inl ⟨_, rfl⟩)))
  refine Or.inr (Or.inr (Or.inr (Or.inr (Or.inr (Or.inr
    (Or.inl ⟨_, rfl, ?_⟩))))))
  intro hres
  cases hsov : sovitsResult with
  | some sv =>
    rw [hsov] at hres
    obtain ⟨htr, hvo⟩ := h2 sv hsov
    obtain ⟨kvs, rfl⟩ : ∃ kvs, sv = Jv.obj kvs := by
      cases sv <;> simp_all [Jv.isObj]
    have hkvs : kvs ≠ [] := by
      intro hk
      rw [hk] at htr
      simp [Jv.pyTruthy] at htr
    have hne : aupdate [] (objKvs (Jv.obj kvs)) ≠ [] :=
      aupdate_nil_ne_nil _ (by simpa [objKvs] using hkvs)
    rw [if_neg (fun hemp => hne (List.isEmpty_iff.mp hemp))] at hres
    exact Jv.noConfusion hres
  | none =>
    obtain ⟨hscript, rfl⟩ := h1 hsov
    rw [hsov] at hres
    refine ⟨hscript, ?_⟩
    cases hak : r.audio_key with
    | none => rfl
    | some ak =>
      rw [hak] at hres
      by_cases hne : ak = ""
      · simp [optTruthy, hne]
      · simp [hne] at hres

theorem runFaceAndFinish_sound (scfg : StoreCfg) (ecfg : EngineCfg)
    (env : RemoteEnv) (tid : String) (r : PipelineRequest)
    (requestDict wavResult intermediate2 : Jv) (r0 : PipelineRequest)
    (hwav : wavResult.isObj = true) :
    (runFaceAndFinish scfg ecfg env tid r requestDict wavResult
      intermediate2).sound (engineEvOk r0) (fun _ => True) := by
  unfold runFaceAndFinish
  refine sound_ite _ _ _ _ _ (fun hsrc => ?_) (fun hsrc => ?_)
  · refine sound_ite _ _ _ _ _ (fun _ => sound_throwErr _ _ _) (fun _ => ?_)
    refine sound_bind _ _ _ _ _
      (sound_evUpdateFields _ _ _ _
        (Or.inr (Or.inr (Or.inr (Or.inr (Or.inr (Or.inl rfl)))))))
      (fun _ _ => ?_)
    refine sound_bind _ _ _ _ _
      (sound_evAppendProgress _ _ _ _ _ _
        (fun now => Or.inr (Or.inl ⟨_, rfl⟩))) (fun _ _ => ?_)
    dsimp only
    refine sound_bind _ _ _ _ _ (sound_callSubmit _ _ _ _ trivial)
      (fun faceJobId _ => ?_)
    refine sound_bind _ _ _ _ _
      (sound_evUpdateFields _ _ _ _ (Or.inr (Or.inr (Or.inl ⟨_, rfl⟩))))
      (fun _ _ => ?_)
    refine sound_bind _ _ _ _ _
      (sound_evAppendProgress _ _ _ _ _ _
        (fun now => Or.inr (Or.inl ⟨_, rfl⟩))) (fun _ _ => ?_)
    refine sound_bind _ _ _ _ _ (sound_callWait _ _ _)
      (fun faceStatus _ => ?_)
    dsimp only
    refine sound_ite _ _ _ _ _ (fun _ => sound_throwErr _ _ _)
      (fun hfo => ?_)
    refine sound_bind _ _ _ _ _
      (sound_attachIntermediate _ _ _ (not_not.mp hfo))
      (fun finalResult hfrobj => ?_)
    refine sound_bind _ _ _ _ _
      (sound_evAppendProgress _ _ _ _ _ _
        (fun now => Or.inr (Or.inl ⟨_, rfl⟩))) (fun _ _ => ?_)
    refine sound_bind _ _ _ _ _
      (sound_evUpdateFields _ _ _ _ (Or.inr (Or.inr (Or.inl ⟨_, rfl⟩))))
      (fun _ _ => ?_)
    refine sound_bind _ _ _ _ _
      (sound_evUpdateFields _ _ _ _
        (Or.inr (Or.inr (Or.inr (Or.inr (Or.inr (Or.inr
          (Or.inl ⟨_, rfl, ?_⟩)))))))) (fun _ _ => ?_)
    · intro hnull
      rw [hnull] at hfrobj
      simp [Jv.isObj] at hfrobj
    · exact sound_evAppendProgress _ _ _ _ _ _
        (fun now => Or.inr (Or.inl ⟨_, rfl⟩))
  · refine sound_bind _ _ _ _ _ (sound_attachIntermediate _ _ _ hwav)
      (fun finalResult hfrobj => ?_)
    refine sound_bind _ _ _ _ _
      (sound_evUpdateFields _ _ _ _
        (Or.inr (Or.inr (Or.inr (Or.inr (Or.inr (Or.inr
          (Or.inl ⟨_, rfl, ?_⟩)))))))) (fun _ _ => ?_)
    · intro hnull
      rw [hnull] at hfrobj
      simp [Jv.isObj] at hfrobj
    · exact sound_evAppendProgress _ _ _ _ _ _
        (fun now => Or.inr (Or.inl ⟨_, rfl⟩))

theorem runWavAndFace_sound (scfg : StoreCfg) (ecfg : EngineCfg)
    (env : RemoteEnv) (tid : String) (r : PipelineRequest)
    (intermediate : Jv) (r0 : PipelineRequest) :
    (runWavAndFace scfg ecfg env tid r intermediate).sound
      (engineEvOk r0) (fun _ => True) := by
  unfold runWavAndFace
  refine sound_bind _ _ _ _ _
    (sound_evUpdateFields _ _ _ _ (Or.inl ⟨"wav2lip", rfl⟩))
    (fun _ _ => ?_)
  refine sound_bind _ _ _ _ _
    (sound_evAppendProgress _ _ _ _ _ _
      (fun now => Or.inr (Or.inl ⟨_, rfl⟩))) (fun _ _ => ?_)
  dsimp only
  refine sound_ite _ _ _ _ _ (fun _ => sound_throwErr _ _ _) (fun _ => ?_)
  refine sound_bind _ _ _ _ _ (sound_callSubmit _ _ _ _ trivial)
    (fun wavJobId _ => ?_)
  refine sound_bind _ _ _ _ _
    (sound_evUpdateFields _ _ _ _ (Or.inr (Or.inr (Or.inl ⟨_, rfl⟩))))
    (fun _ _ => ?_)
  refine sound_bind _ _ _ _ _
    (sound_evAppendProgress _ _ _ _ _ _
      (fun now => Or.inr (Or.inl ⟨_, rfl⟩))) (fun _ _ => ?_)
  refine sound_bind _ _ _ _ _ (sound_callWait _ _ _)
    (fun wavStatus _ => ?_)
  dsimp only
  have htail : ∀ y : Jv, y.isObj = true →
      ((evUpdateFields scfg tid
          [("intermediate", intermediate.jset "wav2lip" y),
           ("details", Jv.obj [("wav2lip_status", wavStatus)])]) >>= fun _ =>
        (evAppendProgress scfg tid "Wav2Lip completed" (some "wav2lip")
          none) >>= fun _ =>
          runFaceAndFinish scfg ecfg env tid r (requestToDict r) y
            (intermediate.jset "wav2lip" y)).sound (engineEvOk r0)
      (fun _ => True) := by
    intro y hy
    refine sound_bind _ _ _ _ _
      (sound_evUpdateFields _ _ _ _
        (Or.inr (Or.inr (Or.inr (Or.inr (Or.inl ⟨_, _, rfl⟩))))))
      (fun _ _ => ?_)
    refine sound_bind _ _ _ _ _
      (sound_evAppendProgress _ _ _ _ _ _
        (fun now => Or.inr (Or.inl ⟨_, rfl⟩))) (fun _ _ => ?_)
    exact runFaceAndFinish_sound scfg ecfg env tid r _ _ _ r0 hy
  cases hwo : wavStatus.jGet "output" with
  | obj kvs =>
    exact sound_bind _ _ _ (fun w => w.isObj = true) _
      (sound_pure _ _ _ rfl) (fun y hy => htail y hy)
  | str sv =>
    exact sound_bind _ _ _ (fun w => w.isObj = true) _
      (sound_pure _ _ _ rfl) (fun y hy => htail y hy)
  | null =>
    exact sound_bind _ _ _ (fun w => w.isObj = true) _
      (sound_throwErr _ _ _) (fun y hy => htail y hy)
  | bool b =>
    exact sound_bind _ _ _ (fun w => w.isObj = true) _
      (sound_throwErr _ _ _) (fun y hy => htail y hy)
  | num n =>
    exact sound_bind _ _ _ (fun w => w.isObj = true) _
      (sound_throwErr _ _ _) (fun y hy => htail y hy)
  | arr xs =>
    exact sound_bind _ _ _ (fun w => w.isObj = true) _
      (sound_throwErr _ _ _) (fun y hy => htail y hy)

theorem executeBody_sound (scfg : StoreCfg) (ecfg : EngineCfg)
    (env : RemoteEnv) (tid : String) (r0 : PipelineRequest) :
    (executeBody scfg ecfg env tid r0).sound (engineEvOk r0)
      (fun _ => True) := by
  unfold executeBody
  dsimp only
  refine sound_bind _ _ _ _ _
    (runStage1_sound scfg ecfg env tid r0 _ _ r0) (fun x hx => ?_)
  obtain ⟨sovitsResult, r1, intermediate⟩ := x
  dsimp only
  refine sound_ite _ _ _ _ _ (fun _ => ?_) (fun _ => ?_)
  · exact finishAudioOnly_sound scfg tid sovitsResult r1 r0
      (fun hnone => (hx.1 hnone))
      (fun sv hsv => hx.2 sv hsv)
  · exact runWavAndFace_sound scfg ecfg env tid r1 intermediate r0

theorem EngM_bind_ok {α β : Type} (x : EngM α) (f : α → EngM β)
    (s s1 : ES) (a : α) (h : x s = (.ok a, s1)) : (x >>= f) s = f a s1 := by
  show (match x s with
    | (.ok a, s1) => f a s1
    | (.error er, s1) => (.error er, s1)) = f a s1
  rw [h]

theorem EngM_bind_error {α β : Type} (x : EngM α) (f : α → EngM β)
    (s s1 : ES) (er : Jv) (h : x s = (.error er, s1)) :
    (x >>= f) s = (.error er, s1) := by
  show (match x s with
    | (.ok a, s1) => f a s1
    | (.error er, s1) => (.error er, s1)) = (.error er, s1)
  rw [h]

theorem engine_execute_events (scfg : StoreCfg) (ecfg : EngineCfg)
    (env : RemoteEnv) (tid : String) (r0 : PipelineRequest)
    (st : StoreState) (c : Int) :
    ∀ e, e ∈ (execute scfg ecfg env tid r0 (ES.mk st c [])).events →
      engineEvOk r0 e := by
  intro e he
  rcases hb : executeBody scfg ecfg env tid r0 (ES.mk st c []) with ⟨res, s1⟩
  have hs1 : ∀ e2 ∈ s1.events, engineEvOk r0 e2 := by
    have h := (executeBody_sound scfg ecfg env tid r0).1 (ES.mk st c [])
      (fun e2 he2 => absurd he2 (List.not_mem_nil e2))
    rw [hb] at h
    exact h
  cases res with
  | ok u =>
    have hex : execute scfg ecfg env tid r0 (ES.mk st c []) = s1 := by
      unfold execute
      rw [hb]
    rw [hex] at he
    exact hs1 e he
  | error er =>
    have hex : execute scfg ecfg env tid r0 (ES.mk st c []) =
        (((evUpdateFields scfg tid [("status", .str "failed"),
            ("state", .str "failed"), ("stage", .str "failed"),
            ("error", normaliseExc er)]) >>= fun _ =>
          evAppendProgress scfg tid "Pipeline failed" (some "failed")
            (some (normaliseExc er))) s1).2 := by
      unfold execute
      rw [hb]
    rw [hex] at he
    rcases hu : (evUpdateFields scfg tid [("status", .str "failed"),
        ("state", .str "failed"), ("stage", .str "failed"),
        ("error", normaliseExc er)]) s1 with ⟨ur, s2⟩
    have hs2 : s2.events = s1.events ++ [Ev.update [("status", .str "failed"),
        ("state", .str "failed"), ("stage", .str "failed"),
        ("error", normaliseExc er)]] := by
      have h := evUpdateFields_events scfg tid [("status", .str "failed"),
        ("state", .str "failed"), ("stage", .str "failed"),
        ("error", normaliseExc er)] s1
      rw [hu] at h
      exact h
    have hUshape : engineEvOk r0 (Ev.update [("status", .str "failed"),
        ("state", .str "failed"), ("stage", .str "failed"),
        ("error", normaliseExc er)]) :=
      Or.inr (Or.inr (Or.inr (Or.inr (Or.inr (Or.inr (Or.inr
        ⟨normaliseExc er, rfl, normaliseExc_isObj er⟩))))))
    cases ur with
    | ok u =>
      rw [EngM_bind_ok _ _ _ _ _ hu] at he
      rw [evAppendProgress_events] at he
      rcases List.mem_append.mp he with hin | hin
      · rw [hs2] at hin
        rcases List.mem_append.mp hin with hin2 | hin2
        · exact hs1 e hin2
        · rw [List.mem_singleton.mp hin2]
          exact hUshape
      · rw [List.mem_singleton.mp hin]
        exact Or.inr (Or.inl ⟨_, rfl⟩)
    | error er2 =>
      rw [EngM_bind_error _ _ _ _ _ hu] at he
      rw [hs2] at he
      rcases List.mem_append.mp he with hin | hin
      · exact hs1 e hin
      · rw [List.mem_singleton.mp hin]
        exact hUshape

/-! ## Claim C1: terminal-write invariants of the pipeline engine -/

/-- C1 counterexample: a request carrying only `audio_base64` (no script
text, no `audio_key`, no target, no sources) is accepted, takes the
audio-only path, and the engine's terminal write — `final_result or None`
— stores `status = "completed"` with `result = null`, violating
`completed ⇒ result ≠ null`. -/
theorem engine_completed_null_result_counterexample :
    Option.map (fun j => (j.jGet "status", j.jGet "result", j.jGet "error"))
      (storeGet demoStoreCfg
        (execute demoStoreCfg demoEngineCfg demoDeadEnv "t1" demoReqB64
          (ES.mk demoStoreB64 1 [])).store "t1" 99).payload =
    some (Jv.str "completed", Jv.null, Jv.null) := rfl

/-- C1 (amended): for every update the engine passes to the store, on
every execution path and for every oracle behaviour: a write with
`status = "completed"` also writes `error = null` and writes a `result`
which can be `null` only when the request had empty (stripped) script
text and a falsy `audio_key` (the degenerate audio-only path); a write
with `status = "failed"` writes a non-null (dict) `error`; and no write
carries both statuses. -/
theorem engine_terminal_write_invariant (scfg : StoreCfg)
    (ecfg : EngineCfg) (env : RemoteEnv) (tid : String)
    (r0 : PipelineRequest) (st : StoreState) (c : Int) :
    ∀ u, Ev.update u ∈
        (execute scfg ecfg env tid r0 (ES.mk st c [])).events →
      (alookup u "status" = some (.str "completed") →
        alookup u "error" = some .null ∧
        ∃ v, alookup u "result" = some v ∧
          (v = .null → pyStrip (r0.script_text.getD "") = "" ∧
            optTruthy r0.audio_key = false)) ∧
      (alookup u "status" = some (.str "failed") →
        ∃ er, alookup u "error" = some er ∧ er ≠ .null) ∧
      ¬ (alookup u "status" = some (.str "completed") ∧
        alookup u "status" = some (.str "failed")) := by
  intro u hu
  have hshape : engineUpdateShape r0 u :=
    engine_execute_events scfg ecfg env tid r0 st c (Ev.update u) hu
  rcases hshape with ⟨stg, rfl⟩ | ⟨entry, rfl⟩ | ⟨dkvs, rfl⟩ |
    ⟨dkvs, im, rfl⟩ | ⟨im, dkvs, rfl⟩ | rfl | ⟨res, rfl, hcond⟩ |
    ⟨er, rfl, herobj⟩
  · refine ⟨fun h => ?_, fun h => ?_, fun h => ?_⟩
    · simp [alookup] at h
    · simp [alookup] at h
    · simp [alookup] at h
  · refine ⟨fun h => ?_, fun h => ?_, fun h => ?_⟩
    · simp [alookup] at h
    · simp [alookup] at h
    · simp [alookup] at h
  · refine ⟨fun h => ?_, fun h => ?_, fun h => ?_⟩
    · simp [alookup] at h
    · simp [alookup] at h
    · simp [alookup] at h
  · refine ⟨fun h => ?_, fun h => ?_, fun h => ?_⟩
    · simp [alookup] at h
    · simp [alookup] at h
    · simp [alookup] at h
  · refine ⟨fun h => ?_, fun h => ?_, fun h => ?_⟩
    · simp [alookup] at h
    · simp [alookup] at h
    · simp [alookup] at h
  · refine ⟨fun h => ?_, fun h => ?_, fun h => ?_⟩
    · simp [alookup] at h
    · simp [alookup] at h
    · simp [alookup] at h
  · refine ⟨fun _ => ⟨rfl, res, rfl, hcond⟩, fun h => ?_, fun h => ?_⟩
    · simp [alookup] at h
    · obtain ⟨h1, h2⟩ := h
      rw [h1] at h2
      simp at h2
  · refine ⟨fun h => ?_, fun _ => ⟨er, rfl, ?_⟩, fun h => ?_⟩
    · simp [alookup] at h
    · intro hnull
      rw [hnull] at herobj
      simp [Jv.isObj] at herobj
    · obtain ⟨h1, h2⟩ := h
      simp [alookup] at h1

/-- Witness for C1's amended theorem: the terminal write of the
audio-base64-only run satisfies the invariant (its null `result` is the
permitted degenerate case). -/
theorem engine_terminal_write_invariant_witness :
    alookup [("status", Jv.str "completed"), ("state", Jv.str "completed"),
      ("stage", Jv.str "completed"), ("result", Jv.null),
      ("error", Jv.null)] "error" = some Jv.null ∧
    ∃ v, alookup [("status", Jv.str "completed"),
      ("state", Jv.str "completed"), ("stage", Jv.str "completed"),
      ("result", Jv.null), ("error", Jv.null)] "result" = some v ∧
      (v = Jv.null → pyStrip (demoReqB64.script_text.getD "") = "" ∧
        optTruthy demoReqB64.audio_key = false) := by
  have hev : (execute demoStoreCfg demoEngineCfg demoDeadEnv "t1" demoReqB64
      (ES.mk demoStoreB64 1 [])).events =
      [Ev.update [("status", Jv.str "completed"),
        ("state", Jv.str "completed"), ("stage", Jv.str "completed"),
        ("result", Jv.null), ("error", Jv.null)],
       Ev.update [("progress", Jv.arr [Jv.obj [("timestamp", Jv.str "2"),
        ("message", Jv.str "Audio-only pipeline completed"),
        ("stage", Jv.str "completed")]])]] := rfl
  have hmem : Ev.update [("status", Jv.str "completed"),
      ("state", Jv.str "completed"), ("stage", Jv.str "completed"),
      ("result", Jv.null), ("error", Jv.null)] ∈
      (execute demoStoreCfg demoEngineCfg demoDeadEnv "t1" demoReqB64
        (ES.mk demoStoreB64 1 [])).events := by
    rw [hev]
    exact List.mem_cons_self _ _
  exact (engine_terminal_write_invariant demoStoreCfg demoEngineCfg
    demoDeadEnv "t1" demoReqB64 demoStoreB64 1 _ hmem).1 rfl

/-! ## Claim C7: progress is append-only -/

theorem alookup_of_getD_ne_null (kvs : List (String × Jv)) (k : String)
    (v : Jv) (h : (alookup kvs k).getD .null = v) (hv : v ≠ .null) :
    alookup kvs k = some v := by
  cases hl : alookup kvs k with
  | none =>
    rw [hl] at h
    exact absurd h.symm hv
  | some w =>
    rw [hl] at h
    rw [show w = v from h]

theorem append_progress_step (cfg : StoreCfg) (st : StoreState)
    (tid : String) (now : Int) (msg : String) (stg : Option String)
    (ex : Option Jv) (kvs : List (String × Jv)) (e : Int) (ps : List Jv)
    (hcache : alookup st.cache (storeKey cfg tid) =
      some (CacheEntry.mk (some (.obj kvs)) e))
    (hne : kvs ≠ [])
    (htid : alookup kvs "task_id" = some (.str tid))
    (hprog : alookup kvs "progress" = some (.arr ps)) :
    ∃ kvs2 st2, appendProgress cfg st tid now msg stg ex =
        .updated (.obj kvs2) st2 ∧
      alookup st2.cache (storeKey cfg tid) =
        some (CacheEntry.mk (some (.obj kvs2)) (now + cfg.ttl)) ∧
      kvs2 ≠ [] ∧
      alookup kvs2 "task_id" = some (.str tid) ∧
      alookup kvs2 "progress" =
        some (.arr (ps ++ [progressEntry now msg stg ex])) := by
  have hget : storeGet cfg st tid now = .ret (some (.obj kvs)) st := by
    unfold storeGet
    rw [hcache]
  have htr : (Jv.obj kvs).pyTruthy = true := by
    simp [Jv.pyTruthy, List.isEmpty_iff, hne]
  obtain ⟨rec, st2, hupd, hcache2, hrobj, hupdat, hunt, hrepl, hdet, hprg⟩ :=
    (update_fields_spec cfg st st tid
      [("progress", .arr [progressEntry now msg stg ex])] now).2
      (.obj kvs) hget rfl htr
      ⟨fun v hl _ => Option.noConfusion hl,
       fun v hl _ => by
        obtain rfl : Jv.arr [progressEntry now msg stg ex] = v :=
          Option.some.inj hl
        left
        simp [Jv.jGet, hprog, Jv.isArr],
       fun d hl => Option.noConfusion hl⟩
      (by simp)
  obtain ⟨kvs2, rfl⟩ : ∃ kvs2, rec = Jv.obj kvs2 := by
    cases rec <;> simp_all [Jv.isObj]
  have hprog2 : alookup kvs2 "progress" =
      some (.arr (ps ++ [progressEntry now msg stg ex])) := by
    have h := hprg [progressEntry now msg stg ex] rfl
    have hpl : progListOf (Jv.obj kvs) = ps := by
      simp [progListOf, Jv.jGet, hprog]
    rw [hpl] at h
    exact alookup_of_getD_ne_null kvs2 "progress" _ h (by simp)
  have htid2 : alookup kvs2 "task_id" = some (.str tid) := by
    have h := hunt "task_id" rfl (by decide)
    simp only [Jv.jGet, htid] at h
    exact alookup_of_getD_ne_null kvs2 "task_id" _ h (by simp)
  have hne2 : kvs2 ≠ [] := by
    intro hk
    rw [hk] at hprog2
    exact Option.noConfusion hprog2
  have htaskid : taskIdOf (Jv.obj kvs2) = tid := by
    unfold taskIdOf
    simp [Jv.jGet, htid2]
  refine ⟨kvs2, st2, ?_, ?_, hne2, htid2, hprog2⟩
  · unfold appendProgress
    exact hupd
  · rw [htaskid] at hcache2
    exact hcache2

theorem runAppends_spec (cfg : StoreCfg) (tid : String)
    (calls : List (Int × String × Option String × Option Jv)) :
    ∀ st kvs e ps,
      alookup st.cache (storeKey cfg tid) =
        some (CacheEntry.mk (some (.obj kvs)) e) →
      kvs ≠ [] →
      alookup kvs "task_id" = some (.str tid) →
      alookup kvs "progress" = some (.arr ps) →
      ∃ kvs2 e2, alookup (runAppends cfg tid calls st).cache
          (storeKey cfg tid) =
          some (CacheEntry.mk (some (.obj kvs2)) e2) ∧
        kvs2 ≠ [] ∧
        alookup kvs2 "task_id" = some (.str tid) ∧
        alookup kvs2 "progress" =
          some (.arr (ps ++ calls.map entryOfCall)) := by
  induction calls with
  | nil =>
    intro st kvs e ps hcache hne htid hprog
    refine ⟨kvs, e, hcache, hne, htid, ?_⟩
    simpa using hprog
  | cons c rest ih =>
    intro st kvs e ps hcache hne htid hprog
    obtain ⟨kvs1, st1, hstep, hcache1, hne1, htid1, hprog1⟩ :=
      append_progress_step cfg st tid c.1 c.2.1 c.2.2.1 c.2.2.2 kvs e ps
        hcache hne htid hprog
    have hrun : runAppends cfg tid (c :: rest) st =
        runAppends cfg tid rest st1 := by
      show (match appendProgress cfg st tid c.1 c.2.1 c.2.2.1 c.2.2.2 with
        | .updated _ st1 => runAppends cfg tid rest st1
        | .notFound st1 => runAppends cfg tid rest st1
        | .raised => st) = runAppends cfg tid rest st1
      rw [hstep]
    rw [hrun]
    obtain ⟨kvs2, e2, h1, h2, h3, h4⟩ :=
      ih st1 kvs1 (c.1 + cfg.ttl) (ps ++ [entryOfCall c]) hcache1 hne1
        htid1 hprog1
    refine ⟨kvs2, e2, h1, h2, h3, ?_⟩
    rw [h4, List.append_assoc]
    rfl

theorem progListOf_congr (a b : Jv)
    (h : a.jGet "progress" = b.jGet "progress") :
    progListOf a = progListOf b := by
  unfold progListOf
  rw [h]

theorem progListOf_of_arr (a : Jv) (l : List Jv)
    (h : a.jGet "progress" = .arr l) : progListOf a = l := by
  unfold progListOf
  rw [h]

/-- C7: `progress` is append-only.  (i) A sequence of `N`
`append_progress` calls on a well-formed cached record grows its
`progress` array by exactly the `N` corresponding entries, in call
order; (ii) each appended entry carries the ISO timestamp of its clock
reading and the message, plus the stage and extra fields exactly when
they are truthy; (iii) every updates mapping the engine ever passes to
`update_fields` — any of the eight shapes `JobManager._execute` issues —
leaves the existing progress entries as an unchanged initial segment of
the resulting record's list: nothing is rewritten, reordered or
truncated. -/
theorem progress_append_only (cfg : StoreCfg) (tid : String)
    (calls : List (Int × String × Option String × Option Jv))
    (st : StoreState) (kvs : List (String × Jv)) (e : Int) (ps : List Jv)
    (hcache : alookup st.cache (storeKey cfg tid) =
      some (CacheEntry.mk (some (.obj kvs)) e))
    (hne : kvs ≠ [])
    (htid : alookup kvs "task_id" = some (.str tid))
    (hprog : alookup kvs "progress" = some (.arr ps)) :
    (∃ kvs2 e2,
      alookup (runAppends cfg tid calls st).cache (storeKey cfg tid) =
        some (CacheEntry.mk (some (.obj kvs2)) e2) ∧
      alookup kvs2 "progress" =
        some (.arr (ps ++ calls.map entryOfCall))) ∧
    (∀ c : Int × String × Option String × Option Jv,
      (entryOfCall c).jGet "timestamp" = .str (isoOf c.1) ∧
      (entryOfCall c).jGet "message" = .str c.2.1 ∧
      (∀ s, c.2.2.1 = some s → s ≠ "" →
        (entryOfCall c).jGet "stage" = .str s) ∧
      (∀ x, c.2.2.2 = some x → x.pyTruthy = true →
        (entryOfCall c).jGet "extra" = x)) ∧
    (∀ (r0 : PipelineRequest) (u : List (String × Jv))
        (st3 st4 : StoreState) (now : Int) (job : Jv),
      engineUpdateShape r0 u →
      storeGet cfg st3 tid now = .ret (some job) st4 →
      job.isObj = true → job.pyTruthy = true →
      wellTypedFor job u → (u.map Prod.fst).Nodup →
      ∃ rec st5, updateFields cfg st3 tid u now = .updated rec st5 ∧
        ∃ tl, progListOf rec = progListOf job ++ tl) := by
  refine ⟨?_, ?_, ?_⟩
  · obtain ⟨kvs2, e2, h1, _, _, h4⟩ :=
      runAppends_spec cfg tid calls st kvs e ps hcache hne htid hprog
    exact ⟨kvs2, e2, h1, h4⟩
  · intro c
    refine ⟨rfl, ?_, ?_, ?_⟩
    · simp [entryOfCall, progressEntry, Jv.jGet, alookup]
    · intro s hs hsne
      simp [entryOfCall, progressEntry, hs, hsne, Jv.jGet, alookup]
    · intro x hx hxt
      cases hstg : c.2.2.1 with
      | none =>
        simp [entryOfCall, progressEntry, hx, hxt, hstg, Jv.jGet, alookup]
      | some s =>
        by_cases hs : s = ""
        · simp [entryOfCall, progressEntry, hx, hxt, hstg, hs, Jv.jGet,
            alookup]
        · simp [entryOfCall, progressEntry, hx, hxt, hstg, hs, Jv.jGet,
            alookup]
  · intro r0 u st3 st4 now job hshape hget hobj htr hwt hnd
    obtain ⟨rec, st5, heq, _, _, _, hunt, _, _, hprg⟩ :=
      (update_fields_spec cfg st3 st4 tid u now).2 job hget hobj htr hwt hnd
    refine ⟨rec, st5, heq, ?_⟩
    rcases hshape with ⟨stg, rfl⟩ | ⟨entry, rfl⟩ | ⟨dkvs, rfl⟩ |
      ⟨dkvs, im, rfl⟩ | ⟨im, dkvs, rfl⟩ | rfl | ⟨res, rfl, _⟩ |
      ⟨er, rfl, _⟩
    · exact ⟨[], by
        rw [List.append_nil]
        exact progListOf_congr rec job (hunt "progress" rfl (by decide))⟩
    · refine ⟨[entry], ?_⟩
      have h := hprg [entry] rfl
      rw [progListOf_of_arr rec _ h]
    · exact ⟨[], by
        rw [List.append_nil]
        exact progListOf_congr rec job (hunt "progress" rfl (by decide))⟩
    · exact ⟨[], by
        rw [List.append_nil]
        exact progListOf_congr rec job (hunt "progress" rfl (by decide))⟩
    · exact ⟨[], by
        rw [List.append_nil]
        exact progListOf_congr rec job (hunt "progress" rfl (by decide))⟩
    · exact ⟨[], by
        rw [List.append_nil]
        exact progListOf_congr rec job (hunt "progress" rfl (by decide))⟩
    · exact ⟨[], by
        rw [List.append_nil]
        exact progListOf_congr rec job (hunt "progress" rfl (by decide))⟩
    · exact ⟨[], by
        rw [List.append_nil]
        exact progListOf_congr rec job (hunt "progress" rfl (by decide))⟩

/-- Witness for C7 at a concrete store: two appends on an empty progress
list yield exactly the two entries, in order. -/
theorem progress_append_only_witness :
    ∃ kvs2 e2,
      alookup (runAppends demoStoreCfg "t" demoCallsC7 demoStoreC7).cache
          (storeKey demoStoreCfg "t") =
        some (CacheEntry.mk (some (.obj kvs2)) e2) ∧
      alookup kvs2 "progress" =
        some (.arr ([] ++ demoCallsC7.map entryOfCall)) := by
  exact (progress_append_only demoStoreCfg "t" demoCallsC7 demoStoreC7
    [("task_id", .str "t"), ("progress", .arr [])] 50 [] rfl
    (List.cons_ne_nil _ _) rfl rfl).1

/-! ## Claim C2: stage selection -/

theorem submissionsOf_append (a b : List Ev) :
    submissionsOf (a ++ b) = submissionsOf a ++ submissionsOf b := by
  unfold submissionsOf
  exact List.filterMap_append a b _

theorem submissionsOf_update (u : List (String × Jv)) :
    submissionsOf [Ev.update u] = [] := rfl

theorem subsSound_pure {α : Type} (a : α) (Q : α → Prop) (h : Q a) :
    (pure a : EngM α).subsSound [] Q := by
  constructor
  · intro s r s1 hr
    obtain rfl : a = r := Except.ok.inj (congrArg Prod.fst hr)
    obtain rfl : s = s1 := congrArg Prod.snd hr
    exact ⟨(List.append_nil _).symm, h⟩
  · intro s er s1 hr
    exact Except.noConfusion (congrArg Prod.fst hr)

theorem subsSound_throwErr {α : Type} (ex : Jv) (l : List StageTag)
    (Q : α → Prop) : (throwErr ex : EngM α).subsSound l Q := by
  constructor
  · intro s r s1 hr
    exact Except.noConfusion (congrArg Prod.fst hr)
  · intro s er s1 hr
    obtain rfl : s = s1 := congrArg Prod.snd hr
    exact ⟨[], l, rfl, (List.append_nil _).symm⟩

theorem subsSound_bind {α β : Type} (x : EngM α) (f : α → EngM β)
    (l1 l2 : List StageTag) (Q1 : α → Prop) (Q2 : β → Prop)
    (hx : x.subsSound l1 Q1) (hf : ∀ a, Q1 a → (f a).subsSound l2 Q2) :
    (x >>= f).subsSound (l1 ++ l2) Q2 := by
  constructor
  · intro s r s1 hr
    rcases hxs : x s with ⟨xr, s2⟩
    cases xr with
    | ok a =>
      rw [EngM_bind_ok x f s s2 a hxs] at hr
      obtain ⟨hs2, hq1⟩ := hx.1 s a s2 hxs
      obtain ⟨hs1, hq2⟩ := (hf a hq1).1 s2 r s1 hr
      refine ⟨?_, hq2⟩
      rw [hs1, hs2, List.append_assoc]
    | error er2 =>
      rw [EngM_bind_error x f s s2 er2 hxs] at hr
      exact Except.noConfusion (congrArg Prod.fst hr)
  · intro s er s1 hr
    rcases hxs : x s with ⟨xr, s2⟩
    cases xr with
    | ok a =>
      rw [EngM_bind_ok x f s s2 a hxs] at hr
      obtain ⟨hs2, hq1⟩ := hx.1 s a s2 hxs
      obtain ⟨m2, m3, hm, hsub⟩ := (hf a hq1).2 s2 er s1 hr
      refine ⟨l1 ++ m2, m3, ?_, ?_⟩
      · rw [hm, List.append_assoc]
      · rw [hsub, hs2, List.append_assoc]
    | error er2 =>
      rw [EngM_bind_error x f s s2 er2 hxs] at hr
      obtain hseq : s2 = s1 := congrArg Prod.snd hr
      obtain ⟨m2, m3, hm, hsub⟩ := hx.2 s er2 s2 hxs
      refine ⟨m2, m3 ++ l2, ?_, ?_⟩
      · rw [hm, List.append_assoc]
      · rw [← hseq]
        exact hsub

theorem subsSound_ite {α : Type} (c : Prop) [Decidable c] (m1 m2 : EngM α)
    (l : List StageTag) (Q : α → Prop) (h1 : c → m1.subsSound l Q)
    (h2 : ¬ c → m2.subsSound l Q) :
    (if c then m1 else m2).subsSound l Q := by
  by_cases hc : c
  · rw [if_pos hc]
    exact h1 hc
  · rw [if_neg hc]
    exact h2 hc

theorem subsSound_evUpdateFields (scfg : StoreCfg) (tid : String)
    (u : List (String × Jv)) :
    (evUpdateFields scfg tid u).subsSound [] (fun _ => True) := by
  constructor
  · intro s r s1 hr
    refine ⟨?_, trivial⟩
    have he := evUpdateFields_events scfg tid u s
    rw [hr] at he
    rw [List.append_nil, show s1.events = s.events ++ [Ev.update u] from he,
      submissionsOf_append, submissionsOf_update, List.append_nil]
  · intro s er s1 hr
    have he := evUpdateFields_events scfg tid u s
    rw [hr] at he
    refine ⟨[], [], rfl, ?_⟩
    rw [List.append_nil, show s1.events = s.events ++ [Ev.update u] from he,
      submissionsOf_append, submissionsOf_update, List.append_nil]

theorem subsSound_evAppendProgress (scfg : StoreCfg) (tid : String)
    (msg : String) (stg : Option String) (ex : Option Jv) :
    (evAppendProgress scfg tid msg stg ex).subsSound [] (fun _ => True) := by
  constructor
  · intro s r s1 hr
    refine ⟨?_, trivial⟩
    have he := evAppendProgress_events scfg tid msg stg ex s
    rw [hr] at he
    rw [List.append_nil, show s1.events = s.events ++
      [Ev.update [("progress",
        .arr [progressEntry s.clock msg stg ex])]] from he,
      submissionsOf_append, submissionsOf_update, List.append_nil]
  · intro s er s1 hr
    have he := evAppendProgress_events scfg tid msg stg ex s
    rw [hr] at he
    refine ⟨[], [], rfl, ?_⟩
    rw [List.append_nil, show s1.events = s.events ++
      [Ev.update [("progress",
        .arr [progressEntry s.clock msg stg ex])]] from he,
      submissionsOf_append, submissionsOf_update, List.append_nil]

theorem subsSound_callSubmit (f : Jv → Except Jv String) (mkEv : Jv → Ev)
    (payload : Jv) (l : List StageTag)
    (hl : submissionsOf [mkEv payload] = l) :
    (callSubmit f mkEv payload).subsSound l (fun _ => True) := by
  constructor
  · intro s r s1 hr
    unfold callSubmit at hr
    cases hf : f payload with
    | ok jid =>
      simp only [hf] at hr
      refine ⟨?_, trivial⟩
      obtain hs : ES.mk s.store s.clock (s.events ++ [mkEv payload]) = s1 :=
        congrArg Prod.snd hr
      rw [← hs]
      show submissionsOf (s.events ++ [mkEv payload]) =
        submissionsOf s.events ++ l
      rw [submissionsOf_append, hl]
    | error e2 =>
      simp only [hf] at hr
      exact Except.noConfusion (congrArg Prod.fst hr)
  · intro s er s1 hr
    unfold callSubmit at hr
    cases hf : f payload with
    | ok jid =>
      simp only [hf] at hr
      exact Except.noConfusion (congrArg Prod.fst hr)
    | error e2 =>
      simp only [hf] at hr
      obtain rfl : s = s1 := congrArg Prod.snd hr
      exact ⟨[], l, rfl, (List.append_nil _).symm⟩

theorem subsSound_callWait (f : String → Except Jv Jv) (jid : String) :
    (callWait f jid).subsSound [] (fun _ => True) := by
  constructor
  · intro s r s1 hr
    obtain rfl : s = s1 := congrArg Prod.snd hr
    exact ⟨(List.append_nil _).symm, trivial⟩
  · intro s er s1 hr
    obtain rfl : s = s1 := congrArg Prod.snd hr
    exact ⟨[], [], rfl, (List.append_nil _).symm⟩

theorem subsSound_attachIntermediate (fr im : Jv) :
    (attachIntermediate fr im).subsSound [] (fun _ => True) := by
  constructor
  · intro s r s1 hr
    have hs := attachIntermediate_state fr im s
    rw [hr] at hs
    refine ⟨?_, trivial⟩
    rw [show s1 = s from hs, List.append_nil]
  · intro s er s1 hr
    have hs := attachIntermediate_state fr im s
    rw [hr] at hs
    refine ⟨[], [], rfl, ?_⟩
    rw [show s1 = s from hs, List.append_nil]

theorem runStage1_subs (scfg : StoreCfg) (ecfg : EngineCfg)
    (env : RemoteEnv) (tid : String) (r : PipelineRequest)
    (scriptText : String) (voiceKey : Option String) :
    (runStage1 scfg ecfg env tid r scriptText voiceKey).subsSound
      (if scriptText = "" then [] else [StageTag.sovits])
      (fun x => x.2.1.target_key = r.target_key ∧
        x.2.1.source_keys = r.source_keys) := by
  unfold runStage1
  refine subsSound_ite _ _ _ _ _ (fun hscript => ?_) (fun hscript => ?_)
  · rw [if_neg hscript]
    refine subsSound_ite _ _ _ _ _
      (fun _ => subsSound_throwErr _ _ _) (fun _ => ?_)
    refine subsSound_ite _ _ _ _ _
      (fun _ => subsSound_throwErr _ _ _) (fun _ => ?_)
    refine subsSound_bind _ _ [] [StageTag.sovits] _ _
      (subsSound_evUpdateFields _ _ _) (fun _ _ => ?_)
    refine subsSound_bind _ _ [] [StageTag.sovits] _ _
      (subsSound_evAppendProgress _ _ _ _ _) (fun _ _ => ?_)
    dsimp only
    refine subsSound_bind _ _ [StageTag.sovits] [] _ _
      (subsSound_callSubmit _ _ _ _ rfl) (fun jid _ => ?_)
    refine subsSound_bind _ _ [] [] _ _
      (subsSound_evUpdateFields _ _ _) (fun _ _ => ?_)
    refine subsSound_bind _ _ [] [] _ _
      (subsSound_evAppendProgress _ _ _ _ _) (fun _ _ => ?_)
    refine subsSound_bind _ _ [] [] _ _
      (subsSound_callWait _ _) (fun sovitsStatus _ => ?_)
    dsimp only
    refine subsSound_ite _ _ _ _ _
      (fun _ => subsSound_throwErr _ _ _) (fun hobjg => ?_)
    dsimp only
    refine subsSound_ite _ _ _ _ _
      (fun _ => subsSound_throwErr _ _ _) (fun hok => ?_)
    dsimp only
    refine subsSound_bind _ _ [] [] _ _
      (subsSound_evUpdateFields _ _ _) (fun _ _ => ?_)
    refine subsSound_bind _ _ [] [] _ _
      (subsSound_evAppendProgress _ _ _ _ _) (fun _ _ => ?_)
    exact subsSound_pure _ _ ⟨rfl, rfl⟩
  · rw [if_pos (not_not.mp hscript)]
    refine subsSound_ite _ _ _ _ _
      (fun _ => subsSound_throwErr _ _ _) (fun _ => ?_)
    exact subsSound_pure _ _ ⟨rfl, rfl⟩

theorem finishAudioOnly_subs (scfg : StoreCfg) (tid : String)
    (sovitsResult : Option Jv) (r : PipelineRequest) :
    (finishAudioOnly scfg tid sovitsResult r).subsSound []
      (fun _ => True) := by
  unfold finishAudioOnly
  dsimp only
  exact subsSound_bind _ _ [] [] _ _ (subsSound_evUpdateFields _ _ _)
    (fun _ _ => subsSound_evAppendProgress _ _ _ _ _)

theorem runFaceAndFinish_subs (scfg : StoreCfg) (ecfg : EngineCfg)
    (env : RemoteEnv) (tid : String) (r : PipelineRequest)
    (requestDict wavResult intermediate2 : Jv) :
    (runFaceAndFinish scfg ecfg env tid r requestDict wavResult
      intermediate2).subsSound
      (if r.source_keys = [] then [] else [StageTag.facefusion])
      (fun _ => True) := by
  unfold runFaceAndFinish
  refine subsSound_ite _ _ _ _ _ (fun hsrc => ?_) (fun hsrc => ?_)
  · rw [if_neg hsrc]
    refine subsSound_ite _ _ _ _ _
      (fun _ => subsSound_throwErr _ _ _) (fun _ => ?_)
    refine subsSound_bind _ _ [] [StageTag.facefusion] _ _
      (subsSound_evUpdateFields _ _ _) (fun _ _ => ?_)
    refine subsSound_bind _ _ [] [StageTag.facefusion] _ _
      (subsSound_evAppendProgress _ _ _ _ _) (fun _ _ => ?_)
    dsimp only
    refine subsSound_bind _ _ [StageTag.facefusion] [] _ _
      (subsSound_callSubmit _ _ _ _ rfl) (fun faceJobId _ => ?_)
    refine subsSound_bind _ _ [] [] _ _
      (subsSound_evUpdateFields _ _ _) (fun _ _ => ?_)
    refine subsSound_bind _ _ [] [] _ _
      (subsSound_evAppendProgress _ _ _ _ _) (fun _ _ => ?_)
    refine subsSound_bind _ _ [] [] _ _ (subsSound_callWait _ _)
      (fun faceStatus _ => ?_)
    dsimp only
    refine subsSound_ite _ _ _ _ _
      (fun _ => subsSound_throwErr _ _ _) (fun hfo => ?_)
    refine subsSound_bind _ _ [] [] _ _
      (subsSound_attachIntermediate _ _) (fun finalResult _ => ?_)
    refine subsSound_bind _ _ [] [] _ _
      (subsSound_evAppendProgress _ _ _ _ _) (fun _ _ => ?_)
    refine subsSound_bind _ _ [] [] _ _
      (subsSound_evUpdateFields _ _ _) (fun _ _ => ?_)
    refine subsSound_bind _ _ [] [] _ _
      (subsSound_evUpdateFields _ _ _) (fun _ _ => ?_)
    exact subsSound_evAppendProgress _ _ _ _ _
  · rw [if_pos (not_not.mp hsrc)]
    refine subsSound_bind _ _ [] [] _ _
      (subsSound_attachIntermediate _ _) (fun finalResult _ => ?_)
    refine subsSound_bind _ _ [] [] _ _
      (subsSound_evUpdateFields _ _ _) (fun _ _ => ?_)
    exact subsSound_evAppendProgress _ _ _ _ _

theorem runWavAndFace_subs (scfg : StoreCfg) (ecfg : EngineCfg)
    (env : RemoteEnv) (tid : String) (r : PipelineRequest)
    (intermediate : Jv) :
    (runWavAndFace scfg ecfg env tid r intermediate).subsSound
      ([StageTag.wav2lip] ++
        (if r.source_keys = [] then [] else [StageTag.facefusion]))
      (fun _ => True) := by
  unfold runWavAndFace
  refine subsSound_bind _ _ []
    ([StageTag.wav2lip] ++
      (if r.source_keys = [] then [] else [StageTag.facefusion])) _ _
    (subsSound_evUpdateFields _ _ _) (fun _ _ => ?_)
  refine subsSound_bind _ _ []
    ([StageTag.wav2lip] ++
      (if r.source_keys = [] then [] else [StageTag.facefusion])) _ _
    (subsSound_evAppendProgress _ _ _ _ _) (fun _ _ => ?_)
  dsimp only
  refine subsSound_ite _ _ _ _ _
    (fun _ => subsSound_throwErr _ _ _) (fun _ => ?_)
  refine subsSound_bind _ _ [StageTag.wav2lip]
    (if r.source_keys = [] then [] else [StageTag.facefusion]) _ _
    (subsSound_callSubmit _ _ _ _ rfl) (fun wavJobId _ => ?_)
  refine subsSound_bind _ _ []
    (if r.source_keys = [] then [] else [StageTag.facefusion]) _ _
    (subsSound_evUpdateFields _ _ _) (fun _ _ => ?_)
  refine subsSound_bind _ _ []
    (if r.source_keys = [] then [] else [StageTag.facefusion]) _ _
    (subsSound_evAppendProgress _ _ _ _ _) (fun _ _ => ?_)
  refine subsSound_bind _ _ []
    (if r.source_keys = [] then [] else [StageTag.facefusion]) _ _
    (subsSound_callWait _ _) (fun wavStatus _ => ?_)
  dsimp only
  have htail : ∀ y : Jv,
      ((evUpdateFields scfg tid
          [("intermediate", intermediate.jset "wav2lip" y),
           ("details", Jv.obj [("wav2lip_status", wavStatus)])]) >>= fun _ =>
        (evAppendProgress scfg tid "Wav2Lip completed" (some "wav2lip")
          none) >>= fun _ =>
          runFaceAndFinish scfg ecfg env tid r (requestToDict r) y
            (intermediate.jset "wav2lip" y)).subsSound
      (if r.source_keys = [] then [] else [StageTag.facefusion])
      (fun _ => True) := by
    intro y
    refine subsSound_bind _ _ []
      (if r.source_keys = [] then [] else [StageTag.facefusion]) _ _
      (subsSound_evUpdateFields _ _ _) (fun _ _ => ?_)
    refine subsSound_bind _ _ []
      (if r.source_keys = [] then [] else [StageTag.facefusion]) _ _
      (subsSound_evAppendProgress _ _ _ _ _) (fun _ _ => ?_)
    exact runFaceAndFinish_subs scfg ecfg env tid r _ y _
  cases hwo : wavStatus.jGet "output" with
  | obj kvs =>
    exact subsSound_bind _ _ []
      (if r.source_keys = [] then [] else [StageTag.facefusion])
      (fun _ => True) _ (subsSound_pure _ _ trivial) (fun y _ => htail y)
  | str sv =>
    exact subsSound_bind _ _ []
      (if r.source_keys = [] then [] else [StageTag.facefusion])
      (fun _ => True) _ (subsSound_pure _ _ trivial) (fun y _ => htail y)
  | null =>
    exact subsSound_bind _ _ []
      (if r.source_keys = [] then [] else [StageTag.facefusion])
      (fun _ => True) _ (subsSound_throwErr _ _ _) (fun y _ => htail y)
  | bool b =>
    exact subsSound_bind _ _ []
      (if r.source_keys = [] then [] else [StageTag.facefusion])
      (fun _ => True) _ (subsSound_throwErr _ _ _) (fun y _ => htail y)
  | num n =>
    exact subsSound_bind _ _ []
      (if r.source_keys = [] then [] else [StageTag.facefusion])
      (fun _ => True) _ (subsSound_throwErr _ _ _) (fun y _ => htail y)
  | arr xs =>
    exact subsSound_bind _ _ []
      (if r.source_keys = [] then [] else [StageTag.facefusion])
      (fun _ => True) _ (subsSound_throwErr _ _ _) (fun y _ => htail y)

theorem stageSelection_code (r : PipelineRequest) :
    stageSelection r =
      (if pyStrip (r.script_text.getD "") = "" then []
        else [StageTag.sovits]) ++
      (if ¬ optTruthy r.target_key = true ∧ r.source_keys = [] then []
        else [StageTag.wav2lip] ++
          (if r.source_keys = [] then [] else [StageTag.facefusion])) := by
  unfold stageSelection sovitsSelected wavSelected faceSelected
  by_cases hs : pyStrip (r.script_text.getD "") = "" <;>
    by_cases ht : optTruthy r.target_key = true <;>
    by_cases hk : r.source_keys = [] <;>
    simp [hs, ht, hk]

theorem executeBody_subs (scfg : StoreCfg) (ecfg : EngineCfg)
    (env : RemoteEnv) (tid : String) (r0 : PipelineRequest) :
    (executeBody scfg ecfg env tid r0).subsSound (stageSelection r0)
      (fun _ => True) := by
  rw [stageSelection_code]
  unfold executeBody
  dsimp only
  refine subsSound_bind _ _
    (if pyStrip (r0.script_text.getD "") = "" then []
      else [StageTag.sovits])
    (if ¬ optTruthy r0.target_key = true ∧ r0.source_keys = [] then []
      else [StageTag.wav2lip] ++
        (if r0.source_keys = [] then [] else [StageTag.facefusion])) _ _
    (runStage1_subs scfg ecfg env tid r0 _ _) (fun x hx => ?_)
  obtain ⟨sovitsResult, r1, intermediate⟩ := x
  obtain ⟨h1, h2⟩ := hx
  dsimp only at h1 h2 ⊢
  rw [← h1, ← h2]
  refine subsSound_ite _ _ _ _ _ (fun hc => ?_) (fun hc => ?_)
  · rw [if_pos hc]
    exact finishAudioOnly_subs scfg tid sovitsResult r1
  · rw [if_neg hc]
    exact runWavAndFace_subs scfg ecfg env tid r1 intermediate

theorem handler_events_subs (scfg : StoreCfg) (tid : String)
    (u : List (String × Jv)) (msg : String) (stg : Option String)
    (ex : Option Jv) (s1 : ES) :
    submissionsOf ((((evUpdateFields scfg tid u) >>= fun _ =>
      evAppendProgress scfg tid msg stg ex) s1)).2.events =
      submissionsOf s1.events := by
  rcases hu : (evUpdateFields scfg tid u) s1 with ⟨ur, s2⟩
  have hs2 : s2.events = s1.events ++ [Ev.update u] := by
    have h := evUpdateFields_events scfg tid u s1
    rw [hu] at h
    exact h
  cases ur with
  | ok a =>
    rw [EngM_bind_ok _ _ _ _ _ hu]
    rw [evAppendProgress_events]
    rw [hs2, submissionsOf_append, submissionsOf_append,
      submissionsOf_update, submissionsOf_update, List.append_nil,
      List.append_nil]
  | error er =>
    rw [EngM_bind_error _ _ _ _ _ hu]
    show submissionsOf s2.events = submissionsOf s1.events
    rw [hs2, submissionsOf_append, submissionsOf_update, List.append_nil]

/-- C2: for every request, engine configuration, oracle behaviour and
starting store, a successful run of `_execute`'s body submits to exactly
the workers of the specification's selection rule, in pipeline order
(voice synthesis iff the stripped `script_text` is non-empty, lip-sync
iff `target_key` or `source_keys` is present, face-swap iff
`source_keys` is non-empty, face-swap after lip-sync); any run,
including failing ones completed by the exception handler, submits an
initial segment of that list. -/
theorem engine_stage_selection (scfg : StoreCfg) (ecfg : EngineCfg)
    (env : RemoteEnv) (tid : String) (r0 : PipelineRequest)
    (st : StoreState) (c : Int) :
    (∀ u s1, executeBody scfg ecfg env tid r0 (ES.mk st c []) =
        (.ok u, s1) →
      submissionsOf s1.events = stageSelection r0) ∧
    (∃ l2 l3, stageSelection r0 = l2 ++ l3 ∧
      submissionsOf
        (execute scfg ecfg env tid r0 (ES.mk st c [])).events = l2) := by
  have hb := executeBody_subs scfg ecfg env tid r0
  constructor
  · intro u s1 h
    have h2 := (hb.1 (ES.mk st c []) u s1 h).1
    rw [h2]
    rfl
  · rcases hrun : executeBody scfg ecfg env tid r0 (ES.mk st c [])
      with ⟨res, s1⟩
    cases res with
    | ok u =>
      refine ⟨stageSelection r0, [], (List.append_nil _).symm, ?_⟩
      have hex : execute scfg ecfg env tid r0 (ES.mk st c []) = s1 := by
        unfold execute
        rw [hrun]
      rw [hex]
      have h2 := (hb.1 (ES.mk st c []) u s1 hrun).1
      rw [h2]
      rfl
    | error er =>
      obtain ⟨l2, l3, hl, hsub⟩ := hb.2 (ES.mk st c []) er s1 hrun
      refine ⟨l2, l3, hl, ?_⟩
      have hex : execute scfg ecfg env tid r0 (ES.mk st c []) =
          (((evUpdateFields scfg tid [("status", .str "failed"),
              ("state", .str "failed"), ("stage", .str "failed"),
              ("error", normaliseExc er)]) >>= fun _ =>
            evAppendProgress scfg tid "Pipeline failed" (some "failed")
              (some (normaliseExc er))) s1).2 := by
        unfold execute
        rw [hrun]
      rw [hex, handler_events_subs, hsub]
      rfl

/-- Witness for C2: the full-chain demonstration run (script text, target
video and one source image, all workers answering) submits to all three
workers in pipeline order. -/
theorem engine_stage_selection_witness :
    submissionsOf ((executeBody demoStoreCfg demoEngineCfg demoOkEnv "t2"
        demoReqFull (ES.mk demoStoreFull 1 [])).2).events =
      stageSelection demoReqFull := by
  have h : executeBody demoStoreCfg demoEngineCfg demoOkEnv "t2" demoReqFull
      (ES.mk demoStoreFull 1 []) =
      (.ok (), (executeBody demoStoreCfg demoEngineCfg demoOkEnv "t2"
        demoReqFull (ES.mk demoStoreFull 1 [])).2) := rfl
  exact (engine_stage_selection demoStoreCfg demoEngineCfg demoOkEnv "t2"
    demoReqFull demoStoreFull 1).1 () _ h

/-! ## Claim C4: the face-swap payload -/

theorem execute_keepsEv (scfg : StoreCfg) (ecfg : EngineCfg)
    (env : RemoteEnv) (tid : String) (r0 : PipelineRequest)
    (st : StoreState) (c : Int) (P : Ev → Prop)
    (hbody : (executeBody scfg ecfg env tid r0).keepsEv P)
    (hupd : ∀ u, P (Ev.update u)) :
    ∀ e, e ∈ (execute scfg ecfg env tid r0 (ES.mk st c [])).events →
      P e := by
  intro e he
  rcases hb : executeBody scfg ecfg env tid r0 (ES.mk st c [])
    with ⟨res, s1⟩
  have hs1 : ∀ e2 ∈ s1.events, P e2 := by
    have h := hbody (ES.mk st c [])
      (fun e2 he2 => absurd he2 (List.not_mem_nil e2))
    rw [hb] at h
    exact h
  cases res with
  | ok u =>
    have hex : execute scfg ecfg env tid r0 (ES.mk st c []) = s1 := by
      unfold execute
      rw [hb]
    rw [hex] at he
    exact hs1 e he
  | error er =>
    have hex : execute scfg ecfg env tid r0 (ES.mk st c []) =
        (((evUpdateFields scfg tid [("status", .str "failed"),
            ("state", .str "failed"), ("stage", .str "failed"),
            ("error", normaliseExc er)]) >>= fun _ =>
          evAppendProgress scfg tid "Pipeline failed" (some "failed")
            (some (normaliseExc er))) s1).2 := by
      unfold execute
      rw [hb]
    rw [hex] at he
    rcases hu : (evUpdateFields scfg tid [("status", .str "failed"),
        ("state", .str "failed"), ("stage", .str "failed"),
        ("error", normaliseExc er)]) s1 with ⟨ur, s2⟩
    have hs2 : s2.events = s1.events ++
        [Ev.update [("status", .str "failed"), ("state", .str "failed"),
          ("stage", .str "failed"), ("error", normaliseExc er)]] := by
      have h := evUpdateFields_events scfg tid [("status", .str "failed"),
        ("state", .str "failed"), ("stage", .str "failed"),
        ("error", normaliseExc er)] s1
      rw [hu] at h
      exact h
    cases ur with
    | ok u2 =>
      rw [EngM_bind_ok _ _ _ _ _ hu] at he
      rw [evAppendProgress_events] at he
      rcases List.mem_append.mp he with hin | hin
      · rw [hs2] at hin
        rcases List.mem_append.mp hin with hin2 | hin2
        · exact hs1 e hin2
        · rw [List.mem_singleton.mp hin2]
          exact hupd _
      · rw [List.mem_singleton.mp hin]
        exact hupd _
    | error er2 =>
      rw [EngM_bind_error _ _ _ _ _ hu] at he
      rw [hs2] at he
      rcases List.mem_append.mp he with hin | hin
      · exact hs1 e hin
      · rw [List.mem_singleton.mp hin]
        exact hupd _

theorem sound_attachIntermediate_true (fr im : Jv) (P : Ev → Prop) :
    (attachIntermediate fr im).sound P (fun _ => True) :=
  ⟨keepsEv_attachIntermediate fr im P, fun _ _ _ _ => trivial⟩

theorem runStage1_faceP (scfg : StoreCfg) (ecfg : EngineCfg)
    (env : RemoteEnv) (tid : String) (r : PipelineRequest)
    (scriptText : String) (voiceKey : Option String) :
    (runStage1 scfg ecfg env tid r scriptText voiceKey).sound
      facePayloadOk (fun _ => True) := by
  unfold runStage1
  refine sound_ite _ _ _ _ _ (fun _ => ?_) (fun _ => ?_)
  · refine sound_ite _ _ _ _ _ (fun _ => sound_throwErr _ _ _) (fun _ => ?_)
    refine sound_ite _ _ _ _ _ (fun _ => sound_throwErr _ _ _) (fun _ => ?_)
    refine sound_bind _ _ _ _ _
      (sound_evUpdateFields _ _ _ _ trivial) (fun _ _ => ?_)
    refine sound_bind _ _ _ _ _
      (sound_evAppendProgress _ _ _ _ _ _ (fun _ => trivial)) (fun _ _ => ?_)
    dsimp only
    refine sound_bind _ _ _ _ _ (sound_callSubmit _ _ _ _ trivial)
      (fun jid _ => ?_)
    refine sound_bind _ _ _ _ _
      (sound_evUpdateFields _ _ _ _ trivial) (fun _ _ => ?_)
    refine sound_bind _ _ _ _ _
      (sound_evAppendProgress _ _ _ _ _ _ (fun _ => trivial)) (fun _ _ => ?_)
    refine sound_bind _ _ _ _ _ (sound_callWait _ _ _)
      (fun sovitsStatus _ => ?_)
    dsimp only
    refine sound_ite _ _ _ _ _ (fun _ => sound_throwErr _ _ _) (fun _ => ?_)
    dsimp only
    refine sound_ite _ _ _ _ _ (fun _ => sound_throwErr _ _ _) (fun _ => ?_)
    dsimp only
    refine sound_bind _ _ _ _ _
      (sound_evUpdateFields _ _ _ _ trivial) (fun _ _ => ?_)
    refine sound_bind _ _ _ _ _
      (sound_evAppendProgress _ _ _ _ _ _ (fun _ => trivial)) (fun _ _ => ?_)
    exact sound_pure _ _ _ trivial
  · refine sound_ite _ _ _ _ _ (fun _ => sound_throwErr _ _ _) (fun _ => ?_)
    exact sound_pure _ _ _ trivial

theorem finishAudioOnly_faceP (scfg : StoreCfg) (tid : String)
    (sovitsResult : Option Jv) (r : PipelineRequest) :
    (finishAudioOnly scfg tid sovitsResult r).sound facePayloadOk
      (fun _ => True) := by
  unfold finishAudioOnly
  dsimp only
  exact sound_bind _ _ _ _ _ (sound_evUpdateFields _ _ _ _ trivial)
    (fun _ _ => sound_evAppendProgress _ _ _ _ _ _ (fun _ => trivial))

theorem runFaceAndFinish_faceP (scfg : StoreCfg) (ecfg : EngineCfg)
    (env : RemoteEnv) (tid : String) (r : PipelineRequest)
    (requestDict wavResult intermediate2 : Jv)
    (hwav : wavResult.isObj = true) :
    (runFaceAndFinish scfg ecfg env tid r requestDict wavResult
      intermediate2).sound facePayloadOk (fun _ => True) := by
  unfold runFaceAndFinish
  refine sound_ite _ _ _ _ _ (fun hsrc => ?_) (fun hsrc => ?_)
  · refine sound_ite _ _ _ _ _ (fun _ => sound_throwErr _ _ _) (fun _ => ?_)
    refine sound_bind _ _ _ _ _
      (sound_evUpdateFields _ _ _ _ trivial) (fun _ _ => ?_)
    refine sound_bind _ _ _ _ _
      (sound_evAppendProgress _ _ _ _ _ _ (fun _ => trivial)) (fun _ _ => ?_)
    dsimp only
    refine sound_bind _ _ _ _ _
      (sound_callSubmit _ _ _ _
        ⟨requestDict, wavResult, hwav, by rw [if_pos hwav]⟩)
      (fun faceJobId _ => ?_)
    refine sound_bind _ _ _ _ _
      (sound_evUpdateFields _ _ _ _ trivial) (fun _ _ => ?_)
    refine sound_bind _ _ _ _ _
      (sound_evAppendProgress _ _ _ _ _ _ (fun _ => trivial)) (fun _ _ => ?_)
    refine sound_bind _ _ _ _ _ (sound_callWait _ _ _)
      (fun faceStatus _ => ?_)
    dsimp only
    refine sound_ite _ _ _ _ _ (fun _ => sound_throwErr _ _ _)
      (fun hfo => ?_)
    refine sound_bind _ _ _ _ _
      (sound_attachIntermediate_true _ _ _) (fun finalResult _ => ?_)
    refine sound_bind _ _ _ _ _
      (sound_evAppendProgress _ _ _ _ _ _ (fun _ => trivial)) (fun _ _ => ?_)
    refine sound_bind _ _ _ _ _
      (sound_evUpdateFields _ _ _ _ trivial) (fun _ _ => ?_)
    refine sound_bind _ _ _ _ _
      (sound_evUpdateFields _ _ _ _ trivial) (fun _ _ => ?_)
    exact sound_evAppendProgress _ _ _ _ _ _ (fun _ => trivial)
  · refine sound_bind _ _ _ _ _
      (sound_attachIntermediate_true _ _ _) (fun finalResult _ => ?_)
    refine sound_bind _ _ _ _ _
      (sound_evUpdateFields _ _ _ _ trivial) (fun _ _ => ?_)
    exact sound_evAppendProgress _ _ _ _ _ _ (fun _ => trivial)

theorem runWavAndFace_faceP (scfg : StoreCfg) (ecfg : EngineCfg)
    (env : RemoteEnv) (tid : String) (r : PipelineRequest)
    (intermediate : Jv) :
    (runWavAndFace scfg ecfg env tid r intermediate).sound facePayloadOk
      (fun _ => True) := by
  unfold runWavAndFace
  refine sound_bind _ _ _ _ _
    (sound_evUpdateFields _ _ _ _ trivial) (fun _ _ => ?_)
  refine sound_bind _ _ _ _ _
    (sound_evAppendProgress _ _ _ _ _ _ (fun _ => trivial)) (fun _ _ => ?_)
  dsimp only
  refine sound_ite _ _ _ _ _ (fun _ => sound_throwErr _ _ _) (fun _ => ?_)
  refine sound_bind _ _ _ _ _ (sound_callSubmit _ _ _ _ trivial)
    (fun wavJobId _ => ?_)
  refine sound_bind _ _ _ _ _
    (sound_evUpdateFields _ _ _ _ trivial) (fun _ _ => ?_)
  refine sound_bind _ _ _ _ _
    (sound_evAppendProgress _ _ _ _ _ _ (fun _ => trivial)) (fun _ _ => ?_)
  refine sound_bind _ _ _ _ _ (sound_callWait _ _ _)
    (fun wavStatus _ => ?_)
  dsimp only
  have htail : ∀ y : Jv, y.isObj = true →
      ((evUpdateFields scfg tid
          [("intermediate", intermediate.jset "wav2lip" y),
           ("details", Jv.obj [("wav2lip_status", wavStatus)])]) >>= fun _ =>
        (evAppendProgress scfg tid "Wav2Lip completed" (some "wav2lip")
          none) >>= fun _ =>
          runFaceAndFinish scfg ecfg env tid r (requestToDict r) y
            (intermediate.jset "wav2lip" y)).sound facePayloadOk
      (fun _ => True) := by
    intro y hy
    refine sound_bind _ _ _ _ _
      (sound_evUpdateFields _ _ _ _ trivial) (fun _ _ => ?_)
    refine sound_bind _ _ _ _ _
      (sound_evAppendProgress _ _ _ _ _ _ (fun _ => trivial)) (fun _ _ => ?_)
    exact runFaceAndFinish_faceP scfg ecfg env tid r _ y _ hy
  cases hwo : wavStatus.jGet "output" with
  | obj kvs =>
    exact sound_bind _ _ _ (fun w => w.isObj = true) _
      (sound_pure _ _ _ rfl) (fun y hy => htail y hy)
  | str sv =>
    exact sound_bind _ _ _ (fun w => w.isObj = true) _
      (sound_pure _ _ _ rfl) (fun y hy => htail y hy)
  | null =>
    exact sound_bind _ _ _ (fun w => w.isObj = true) _
      (sound_throwErr _ _ _) (fun y hy => htail y hy)
  | bool b =>
    exact sound_bind _ _ _ (fun w => w.isObj = true) _
      (sound_throwErr _ _ _) (fun y hy => htail y hy)
  | num n =>
    exact sound_bind _ _ _ (fun w => w.isObj = true) _
      (sound_throwErr _ _ _) (fun y hy => htail y hy)
  | arr xs =>
    exact sound_bind _ _ _ (fun w => w.isObj = true) _
      (sound_throwErr _ _ _) (fun y hy => htail y hy)

theorem executeBody_faceP (scfg : StoreCfg) (ecfg : EngineCfg)
    (env : RemoteEnv) (tid : String) (r0 : PipelineRequest) :
    (executeBody scfg ecfg env tid r0).sound facePayloadOk
      (fun _ => True) := by
  unfold executeBody
  dsimp only
  refine sound_bind _ _ _ _ _
    (runStage1_faceP scfg ecfg env tid r0 _ _) (fun x _ => ?_)
  obtain ⟨sovitsResult, r1, intermediate⟩ := x
  dsimp only
  refine sound_ite _ _ _ _ _ (fun _ => ?_) (fun _ => ?_)
  · exact finishAudioOnly_faceP scfg tid sovitsResult r1
  · exact runWavAndFace_faceP scfg ecfg env tid r1 intermediate

theorem runFaceAndFinish_payload (scfg : StoreCfg) (ecfg : EngineCfg)
    (env : RemoteEnv) (tid : String) (r : PipelineRequest)
    (requestDict wavResult intermediate2 : Jv)
    (hwav : wavResult.isObj = true)
    (him : intermediate2.jGet "wav2lip" = wavResult) :
    (runFaceAndFinish scfg ecfg env tid r requestDict wavResult
      intermediate2).keepsEv (facePayloadIs requestDict intermediate2) := by
  unfold runFaceAndFinish
  refine keepsEv_ite _ _ _ _ (fun _ => ?_) (fun _ => ?_)
  · refine keepsEv_ite _ _ _ _ (fun _ => keepsEv_throwErr _ _) (fun _ => ?_)
    refine keepsEv_bind _ _ _
      (keepsEv_evUpdateFields _ _ _ _ (fun _ h => Ev.noConfusion h))
      (fun _ => ?_)
    refine keepsEv_bind _ _ _
      (keepsEv_evAppendProgress _ _ _ _ _ _
        (fun _ _ h => Ev.noConfusion h)) (fun _ => ?_)
    dsimp only
    refine keepsEv_bind _ _ _
      (keepsEv_callSubmit _ _ _ _ (fun p2 h => ?_)) (fun faceJobId => ?_)
    · obtain rfl := Ev.submitFace.inj h
      rw [if_pos hwav, him]
    · refine keepsEv_bind _ _ _
        (keepsEv_evUpdateFields _ _ _ _ (fun _ h => Ev.noConfusion h))
        (fun _ => ?_)
      refine keepsEv_bind _ _ _
        (keepsEv_evAppendProgress _ _ _ _ _ _
          (fun _ _ h => Ev.noConfusion h)) (fun _ => ?_)
      refine keepsEv_bind _ _ _ (keepsEv_callWait _ _ _)
        (fun faceStatus => ?_)
      dsimp only
      refine keepsEv_ite _ _ _ _ (fun _ => keepsEv_throwErr _ _)
        (fun _ => ?_)
      refine keepsEv_bind _ _ _ (keepsEv_attachIntermediate _ _ _)
        (fun finalResult => ?_)
      refine keepsEv_bind _ _ _
        (keepsEv_evAppendProgress _ _ _ _ _ _
          (fun _ _ h => Ev.noConfusion h)) (fun _ => ?_)
      refine keepsEv_bind _ _ _
        (keepsEv_evUpdateFields _ _ _ _ (fun _ h => Ev.noConfusion h))
        (fun _ => ?_)
      refine keepsEv_bind _ _ _
        (keepsEv_evUpdateFields _ _ _ _ (fun _ h => Ev.noConfusion h))
        (fun _ => ?_)
      exact keepsEv_evAppendProgress _ _ _ _ _ _
        (fun _ _ h => Ev.noConfusion h)
  · refine keepsEv_bind _ _ _ (keepsEv_attachIntermediate _ _ _)
      (fun finalResult => ?_)
    refine keepsEv_bind _ _ _
      (keepsEv_evUpdateFields _ _ _ _ (fun _ h => Ev.noConfusion h))
      (fun _ => ?_)
    exact keepsEv_evAppendProgress _ _ _ _ _ _
      (fun _ _ h => Ev.noConfusion h)

/-- C4 counterexample: with the lip-sync worker answering a bare string
URL, the engine records `intermediate.wav2lip = {"output_url": url}`
(trace event 12) but submits a face-swap payload whose `wav2lip` is
`null` — `wav_result.get("wav2lip")`, not the stage-2 output (trace
event 16). -/
theorem face_payload_counterexample :
    ∃ q im d,
      ((executeBody demoStoreCfg demoEngineCfg demoOkEnvUrl "t2"
          demoReqFull (ES.mk demoStoreFull 1 [])).2.events).get? 16 =
        some (Ev.submitFace (Jv.obj [("request", q),
          ("wav2lip", Jv.null)])) ∧
      ((executeBody demoStoreCfg demoEngineCfg demoOkEnvUrl "t2"
          demoReqFull (ES.mk demoStoreFull 1 [])).2.events).get? 12 =
        some (Ev.update [("intermediate", im), ("details", d)]) ∧
      im.jGet "wav2lip" = Jv.obj [("output_url", Jv.str "https://u")] ∧
      im.jGet "wav2lip" ≠ Jv.null := by
  refine ⟨requestToDict (PipelineRequest.mk ["in/f.png"] (some "in/v.mp4")
      (some "out/s.wav") (some "QUJD") (some "refs/a.wav") (some "Hi")
      none none (.obj [("output_key", .null)]) true (.obj []) (.obj [])),
    _, _, rfl, rfl, rfl, fun h => Jv.noConfusion h⟩

/-- C4 (amended): whenever the engine submits to the face-swap worker,
the payload is a two-key mapping `{"request": q, "wav2lip": w}` where
`q` is the current request snapshot and `w` is the `wav2lip` member of
the stage-2 output (the value recorded as `intermediate.wav2lip`) — not
that output itself. -/
theorem face_payload_spec (scfg : StoreCfg) (ecfg : EngineCfg)
    (env : RemoteEnv) (tid : String) (r0 : PipelineRequest)
    (st : StoreState) (c : Int) (r : PipelineRequest)
    (requestDict wavResult intermediate2 : Jv)
    (hwav : wavResult.isObj = true)
    (him : intermediate2.jGet "wav2lip" = wavResult) :
    (∀ p, Ev.submitFace p ∈
        (execute scfg ecfg env tid r0 (ES.mk st c [])).events →
      ∃ (q : Jv) (w : Jv), w.isObj = true ∧
        p = .obj [("request", q), ("wav2lip", w.jGet "wav2lip")]) ∧
    (∀ s p, (∀ p2, Ev.submitFace p2 ∉ s.events) →
      Ev.submitFace p ∈
        ((runFaceAndFinish scfg ecfg env tid r requestDict wavResult
          intermediate2) s).2.events →
      p = .obj [("request", requestDict),
        ("wav2lip", (intermediate2.jGet "wav2lip").jGet "wav2lip")]) := by
  constructor
  · intro p hp
    exact execute_keepsEv scfg ecfg env tid r0 st c facePayloadOk
      (executeBody_faceP scfg ecfg env tid r0).1 (fun u => trivial)
      (Ev.submitFace p) hp
  · intro s p hno hp
    have hk := runFaceAndFinish_payload scfg ecfg env tid r requestDict
      wavResult intermediate2 hwav him s
      (fun e he p2 hep2 => absurd (hep2 ▸ he) (hno p2))
    exact hk (Ev.submitFace p) hp p rfl

/-- Witness for C4's amended theorem at a concrete stage-3 call: the
submitted payload's `wav2lip` is the `wav2lip` member of the recorded
intermediate value. -/
theorem face_payload_spec_witness :
    Jv.obj [("request", Jv.null), ("wav2lip", Jv.null)] =
      Jv.obj [("request", Jv.null),
        ("wav2lip", (((Jv.obj [("wav2lip",
          Jv.obj [("output_url", Jv.str "https://u")])]).jGet
            "wav2lip").jGet "wav2lip"))] := by
  refine (face_payload_spec demoStoreCfg demoEngineCfg demoOkEnvUrl "t2"
    demoReqFull (StoreState.mk [] []) 0 demoReqFull Jv.null
    (Jv.obj [("output_url", Jv.str "https://u")])
    (Jv.obj [("wav2lip", Jv.obj [("output_url", Jv.str "https://u")])])
    rfl rfl).2 (ES.mk (StoreState.mk [] []) 0 [])
    (Jv.obj [("request", Jv.null), ("wav2lip", Jv.null)])
    (fun p2 => List.not_mem_nil _) ?_
  exact List.get?_mem (show ((runFaceAndFinish demoStoreCfg demoEngineCfg
    demoOkEnvUrl "t2" demoReqFull Jv.null
    (Jv.obj [("output_url", Jv.str "https://u")])
    (Jv.obj [("wav2lip", Jv.obj [("output_url", Jv.str "https://u")])]))
    (ES.mk (StoreState.mk [] []) 0 [])).2.events.get? 2 =
    some (Ev.submitFace (Jv.obj [("request", Jv.null),
      ("wav2lip", Jv.null)])) from rfl)
